import Mathlib

/-!
Shallow embedding of the Local Activity Manager from
`src/core/src/worker/activities/local_activities.rs`.

Modelling conventions:
* Durations and timestamps (`std::time::Duration`, `SystemTime`, `Instant`) are
  `Nat` in a single abstract time unit.  `SystemTime::elapsed().unwrap_or_default()`
  at wall time `now` is `now - schedule_time` (truncated `Nat` subtraction, which
  also yields `0` when the clock went backwards, matching `unwrap_or_default`).
  `Duration::saturating_sub` is `Nat` subtraction.
* Task tokens are the little-endian `u32` counter they serialize; the counter
  wraps modulo `2 ^ 32` as `u32` arithmetic does.
* The four `HashMap`s of `LAMData` are functions into `Option`.
* Tokio tasks spawned by the manager (timeout timers, backoff sleeps) are
  plain data stored in the state; a separate "fire" transition delivers the
  message such a task would send, and aborting a task removes the data (an
  aborted task never fires).
* `tokio::select!` without `biased` polls its branches starting from a random
  rotation; the model takes the poll order as an explicit parameter and picks
  the first ready branch in that order, exactly as the macro does.
* The semaphore is the count of available permits.  A permit acquired by the
  dequeue path is either returned (early return drops it) or held by the
  `LocalInFlightActInfo` until `complete` removes that entry.
-/

/-- `TimeoutType` from the Temporal protos (only the discriminants matter here). -/
inductive TimeoutType where
  | Unspecified
  | StartToClose
  | ScheduleToStart
  | ScheduleToClose
  | Heartbeat
deriving DecidableEq, Repr

/-- `ActivityCancelReason` from the Temporal protos. -/
inductive ActivityCancelReason where
  | NotFound
  | Cancelled
  | TimedOut
deriving DecidableEq, Repr

/-- `activity_result::Success`; payload stands in as an optional string. -/
structure Success where
  result : Option String := none
deriving DecidableEq, Repr

/-- `activity_result::Cancellation`; details stand in as an optional string. -/
structure Cancellation where
  details : Option String := none
deriving DecidableEq, Repr

/-- `Cancellation::from_details`. -/
def Cancellation.from_details (d : Option String) : Cancellation := ⟨d⟩

/-- `ApplicationFailureInfo` (the part the retry policy inspects). -/
structure ApplicationFailureInfo where
  type_name : String := ""
  non_retryable : Bool := false
deriving DecidableEq, Repr

/-- `activity_result::Failure` (`ActFail`): collapsed to the optional
application-failure info that `f.failure.and_then(maybe_application_failure)`
extracts, plus the timeout type `ActFail::timeout` stores. -/
structure ActFail where
  app_failure : Option ApplicationFailureInfo := none
  timeout_type : Option TimeoutType := none
deriving DecidableEq, Repr

/-- `ActFail::timeout`. -/
def ActFail.timeout (tt : TimeoutType) : ActFail := { timeout_type := some tt }

/-- `LocalActivityExecutionResult`. -/
inductive LocalActivityExecutionResult where
  | Completed (s : Success)
  | Failed (f : ActFail)
  | TimedOut (f : ActFail)
  | Cancelled (c : Cancellation)
deriving DecidableEq, Repr

/-- `LocalActivityExecutionResult::empty_cancel`. -/
def LocalActivityExecutionResult.empty_cancel : LocalActivityExecutionResult :=
  .Cancelled (Cancellation.from_details none)

/-- `LocalActivityExecutionResult::timeout`. -/
def LocalActivityExecutionResult.timeout (tt : TimeoutType) : LocalActivityExecutionResult :=
  .TimedOut (ActFail.timeout tt)

/-- `LocalActivityResolution`. -/
structure LocalActivityResolution where
  seq : Nat
  result : LocalActivityExecutionResult
  runtime : Nat
  attempt : Nat
  backoff : Option Nat
  original_schedule_time : Option Nat
deriving DecidableEq, Repr

/-- `WorkflowExecution` from the protos. -/
structure WorkflowExecution where
  workflow_id : String := ""
  run_id : String := ""
deriving DecidableEq, Repr

/-- Modelled from the spec: the retry-policy evaluator is out of scope for the
LAM and "abstracted as a pure function `should_retry(attempt, failure) ->
Option<Duration>`" (spec §1); `retry_logic.rs` is not among the sources, so a
policy is directly that function. -/
def RetryPolicy : Type := Nat → Option ApplicationFailureInfo → Option Nat

/-- `RetryPolicyExt::should_retry` applied to a policy. -/
def RetryPolicy.should_retry (p : RetryPolicy) (attempt : Nat)
    (f : Option ApplicationFailureInfo) : Option Nat := p attempt f

/-- Modelled from the spec: the close-timeout variant is "one of {none,
schedule-only(d), start-only(d), both(sched, start)}" (spec §3);
`LACloseTimeouts` lives in `protosext`, which is not among the sources. -/
inductive LACloseTimeouts where
  | NoCloseTimeouts
  | ScheduleOnly (d : Nat)
  | StartOnly (d : Nat)
  | Both (sched : Nat) (start : Nat)
deriving DecidableEq, Repr

/-- Modelled from the spec: the close-timeout variant is "resolved at admission
into an optional `(sched_to_close, start_to_close)` pair" (spec §3). -/
def LACloseTimeouts.into_sched_and_start : LACloseTimeouts → Option Nat × Option Nat
  | .NoCloseTimeouts => (none, none)
  | .ScheduleOnly d => (some d, none)
  | .StartOnly d => (none, some d)
  | .Both s t => (some s, some t)

/-- Modelled from the spec: `ValidScheduleLA` lives in `protosext` (not among
the sources); its fields are the ones `local_activities.rs` reads, matching
the "full schedule record" of spec §3. -/
structure ValidScheduleLA where
  seq : Nat
  activity_id : String := ""
  activity_type : String := ""
  headers : List (String × String) := []
  arguments : List String := []
  retry_policy : RetryPolicy
  local_retry_threshold : Nat
  schedule_to_start_timeout : Option Nat := none
  close_timeouts : LACloseTimeouts := .NoCloseTimeouts
  attempt : Nat := 0

/-- `NewLocalAct`. -/
structure NewLocalAct where
  schedule_cmd : ValidScheduleLA
  workflow_type : String := ""
  workflow_exec_info : WorkflowExecution := {}
  schedule_time : Nat

/-- `ExecutingLAId`. -/
structure ExecutingLAId where
  run_id : String
  seq_num : Nat
deriving DecidableEq, Repr

/-- The `ExecutingLAId` built from a `NewLocalAct` (as at the top of
`enqueue`'s `New` arm and in `next_pending`). -/
def NewLocalAct.laId (n : NewLocalAct) : ExecutingLAId :=
  ⟨n.workflow_exec_info.run_id, n.schedule_cmd.seq⟩

/-- `LocalActRequest`. -/
inductive LocalActRequest where
  | New (act : NewLocalAct)
  | Cancel (id : ExecutingLAId)

/-- `LocalInFlightActInfo`.  The owned semaphore permit is not a datum here:
the model accounts for it in `LAMState.permits` (one permit is held for the
lifetime of each outstanding entry). -/
structure LocalInFlightActInfo where
  la_info : NewLocalAct
  dispatch_time : Nat
  attempt : Nat

/-- Id of the activity an in-flight record belongs to. -/
def LocalInFlightActInfo.laId (i : LocalInFlightActInfo) : ExecutingLAId :=
  i.la_info.laId

/-- `NewOrRetry`. -/
inductive NewOrRetry where
  | New (n : NewLocalAct)
  | Retry (in_flight : NewLocalAct) (attempt : Nat)

/-- Id carried by a new/retry queue item. -/
def NewOrRetry.idOf : NewOrRetry → ExecutingLAId
  | .New n => n.laId
  | .Retry inf _ => inf.laId

/-- The `(new_la, attempt)` destructuring at the top of `next_pending`'s
new/retry arm: an explicit attempt `≥ 1` is kept, otherwise `1`. -/
def NewOrRetry.laAndAttempt : NewOrRetry → NewLocalAct × Nat
  | .New n => (n, max n.schedule_cmd.attempt 1)
  | .Retry inf a => (inf, a)

/-- `activity_task::Variant::Start` (the fields `next_pending` populates). -/
structure StartTask where
  workflow_namespace : String
  workflow_type : String
  workflow_execution : Option WorkflowExecution
  activity_id : String
  activity_type : String
  header_fields : List (String × String)
  input : List String
  heartbeat_details : List String
  scheduled_time : Option Nat
  current_attempt_scheduled_time : Option Nat
  started_time : Option Nat
  attempt : Nat
  schedule_to_close_timeout : Option Nat
  start_to_close_timeout : Option Nat
  heartbeat_timeout : Option Nat
  retry_policy : Option RetryPolicy
  is_local : Bool

/-- `activity_task::Variant`. -/
inductive ActivityTaskVariant where
  | Start (s : StartTask)
  | Cancel (reason : ActivityCancelReason)

/-- `ActivityTask`; the task token is the `u32` counter it serializes. -/
structure ActivityTask where
  task_token : Nat
  variant : Option ActivityTaskVariant

/-- `CancelOrTimeout`. -/
inductive CancelOrTimeout where
  | Cancel (t : ActivityTask)
  | Timeout (run_id : String) (resolution : LocalActivityResolution) (dispatch_cancel : Bool)

/-- `DispatchOrTimeoutLA`. -/
inductive DispatchOrTimeoutLA where
  | Dispatch (t : ActivityTask)
  | Timeout (run_id : String) (resolution : LocalActivityResolution) (task : Option ActivityTask)

/-- `LACompleteAction`. -/
inductive LACompleteAction where
  | Report (info : LocalInFlightActInfo)
  | LangDoesTimerBackoff (backoff : Nat) (info : LocalInFlightActInfo)
  | WillBeRetried
  | Untracked

/-- Discriminator: is this action a `Report`? -/
def LACompleteAction.isReport : LACompleteAction → Bool
  | .Report _ => true
  | _ => false

/-- Discriminator: is this action `Untracked`? -/
def LACompleteAction.isUntracked : LACompleteAction → Bool
  | .Untracked => true
  | _ => false

/-- The backoff task `complete` spawns: it sleeps `backoff` and then sends
`NewOrRetry::Retry { in_flight, attempt }` on the new/retry channel.  `fired`
records whether the send already happened (the `JoinHandle` stays in
`backing_off_tasks` after the task finishes, until dequeue removes it). -/
structure BackoffTask where
  fired : Bool
  backoff : Nat
  in_flight : NewLocalAct
  attempt : Nat

/-- The message a backoff task sends when its sleep ends. -/
def BackoffTask.fireMessage (t : BackoffTask) : NewOrRetry :=
  .Retry t.in_flight t.attempt

/-- `TimeoutBag`.  The spawned schedule-to-close task is the pending
`(absolute deadline, message)` pair (`none` when there is no such timer or it
already fired); likewise the armed start-to-close task records when it was
started. -/
structure TimeoutBag where
  sched_to_close_task : Option (Nat × CancelOrTimeout)
  start_to_close_dur_and_dat : Option (Nat × CancelOrTimeout)
  start_to_close_task : Option (Nat × Nat × CancelOrTimeout)

/-- `TimeoutBag::new` at wall time `now`.  Returns `Err` with the immediate
resolution when the schedule-to-close timeout has already elapsed. -/
def TimeoutBag.new (now : Nat) (new_la : NewLocalAct) :
    Except LocalActivityResolution TimeoutBag :=
  let sas := new_la.schedule_cmd.close_timeouts.into_sched_and_start
  let resolution : LocalActivityResolution :=
    { seq := new_la.schedule_cmd.seq
      result := LocalActivityExecutionResult.timeout .ScheduleToClose
      runtime := 0
      attempt := new_la.schedule_cmd.attempt
      backoff := none
      original_schedule_time := some new_la.schedule_time }
  -- Remove any time already elapsed since the scheduling time
  let schedule_to_close := sas.1.map (fun s2c => s2c - (now - new_la.schedule_time))
  if schedule_to_close = some 0 then
    .error resolution
  else
    let timeout_dat : CancelOrTimeout :=
      .Timeout new_la.workflow_exec_info.run_id resolution true
    .ok
      { sched_to_close_task := schedule_to_close.map (fun s2c => (now + s2c, timeout_dat))
        start_to_close_dur_and_dat := sas.2.map (fun d => (d, timeout_dat))
        start_to_close_task := none }

/-- `TimeoutBag::mark_started` at wall time `now`: arm the start-to-close
timer, if one is configured and not yet armed. -/
def TimeoutBag.mark_started (now : Nat) (b : TimeoutBag) : TimeoutBag :=
  match b.start_to_close_dur_and_dat with
  | none => b
  | some (d, dat) =>
      { b with start_to_close_dur_and_dat := none
               start_to_close_task := some (now, d, dat) }

/-- The message the armed start-to-close task sends when it fires at wall time
`now`: the stored data with the result rewritten to a start-to-close timeout
and the runtime set to the time since `mark_started`. -/
def TimeoutBag.startToCloseMessage (startedAt : Nat) (now : Nat)
    (dat : CancelOrTimeout) : CancelOrTimeout :=
  match dat with
  | .Timeout run_id resolution dc =>
      .Timeout run_id
        { resolution with
            result := LocalActivityExecutionResult.timeout .StartToClose
            runtime := now - startedAt }
        dc
  | other => other

/-- Pointwise map update (`HashMap::insert` when `v = some _`,
`HashMap::remove` when `v = none`). -/
def upd {α β : Type} [DecidableEq α] (f : α → Option β) (k : α) (v : Option β) :
    α → Option β :=
  fun x => if x = k then v else f x

/-- The whole manager state: `LAMData` plus the channels, the semaphore count,
the completion notifier and the shutdown token of `LocalActivityManager`. -/
structure LAMState where
  la_namespace : String
  permits : Nat
  outstanding_activity_tasks : Nat → Option LocalInFlightActInfo
  id_to_tt : ExecutingLAId → Option Nat
  backing_off_tasks : ExecutingLAId → Option BackoffTask
  timeout_tasks : ExecutingLAId → Option TimeoutBag
  next_tt_num : Nat
  newRetryQueue : List NewOrRetry
  cancelQueue : List CancelOrTimeout
  shutdownCancelled : Bool
  notifyCount : Nat

/-- `LocalActivityManager::new`. -/
def LocalActivityManager.new (max_concurrent : Nat) (ns : String) : LAMState :=
  { la_namespace := ns
    permits := max_concurrent
    outstanding_activity_tasks := fun _ => none
    id_to_tt := fun _ => none
    backing_off_tasks := fun _ => none
    timeout_tasks := fun _ => none
    next_tt_num := 0
    newRetryQueue := []
    cancelQueue := []
    shutdownCancelled := false
    notifyCount := 0 }

/-- `LAMData::gen_next_token`: increment the `u32` counter and serialize it.
Returns the token together with the updated counter. -/
def genNextToken (next_tt_num : Nat) : Nat := (next_tt_num + 1) % 2 ^ 32

/-- One iteration of `enqueue`'s `for` loop, threading the state and the
vector of immediate resolutions. -/
def enqueueOne (now : Nat) (p : LAMState × List LocalActivityResolution)
    (req : LocalActRequest) : LAMState × List LocalActivityResolution :=
  let s := p.1
  let acc := p.2
  match req with
  | .New act =>
      let id := act.laId
      if (s.id_to_tt id).isSome then
        -- Do not queue local activities which are in fact already executing.
        (s, acc)
      else
        -- Pre-generate and insert the task token now, before we may or may
        -- not dispatch the activity, so we can enforce idempotency.
        let tt := genNextToken s.next_tt_num
        let s := { s with next_tt_num := tt, id_to_tt := upd s.id_to_tt id (some tt) }
        match TimeoutBag.new now act with
        | .ok tb =>
            ({ s with timeout_tasks := upd s.timeout_tasks id (some tb)
                      newRetryQueue := s.newRetryQueue ++ [NewOrRetry.New act] },
             acc)
        | .error res => (s, acc ++ [res])
  | .Cancel id =>
      -- First check if this ID is currently backing off, if so abort the
      -- backoff task
      match s.backing_off_tasks id with
      | some _t =>
          ({ s with backing_off_tasks := upd s.backing_off_tasks id none },
           acc ++ [{ seq := id.seq_num
                     result := LocalActivityExecutionResult.Cancelled
                       (Cancellation.from_details none)
                     runtime := 0
                     attempt := 0
                     backoff := none
                     original_schedule_time := none }])
      | none =>
          match s.id_to_tt id with
          | some tt =>
              ({ s with cancelQueue := s.cancelQueue ++
                  [CancelOrTimeout.Cancel
                    ⟨tt, some (ActivityTaskVariant.Cancel .Cancelled)⟩] },
               acc)
          | none => (s, acc)

/-- `LocalActivityManager::enqueue` at wall time `now`. -/
def LAMState.enqueue (s : LAMState) (now : Nat) (reqs : List LocalActRequest) :
    List LocalActivityResolution × LAMState :=
  let p := reqs.foldl (enqueueOne now) (s, [])
  (p.2, p.1)

/-- `LocalActivityManager::complete`. -/
def LAMState.complete (s : LAMState) (task_token : Nat)
    (status : LocalActivityExecutionResult) : LACompleteAction × LAMState :=
  match s.outstanding_activity_tasks task_token with
  | none => (.Untracked, s)
  | some info =>
      let exec_id := info.laId
      -- removing the in-flight entry drops its permit back to the semaphore
      let s1 := { s with
        outstanding_activity_tasks := upd s.outstanding_activity_tasks task_token none
        id_to_tt := upd s.id_to_tt exec_id none
        permits := s.permits + 1 }
      match status with
      | .Completed _ | .TimedOut _ | .Cancelled _ =>
          -- Timeouts are included in this branch since they are not retried
          (.Report info, { s1 with notifyCount := s1.notifyCount + 1 })
      | .Failed f =>
          match info.la_info.schedule_cmd.retry_policy.should_retry
              info.attempt f.app_failure with
          | some backoff_dur =>
              if backoff_dur > info.la_info.schedule_cmd.local_retry_threshold then
                (.LangDoesTimerBackoff backoff_dur info, s1)
              else
                -- Immediately create a new task token for the to-be-retried LA
                let tt := genNextToken s1.next_tt_num
                (.WillBeRetried,
                 { s1 with
                     next_tt_num := tt
                     id_to_tt := upd s1.id_to_tt exec_id (some tt)
                     backing_off_tasks := upd s1.backing_off_tasks exec_id
                       (some { fired := false
                               backoff := backoff_dur
                               in_flight := info.la_info
                               attempt := info.attempt + 1 }) })
          | none => (.Report info, s1)

/-- The three branches of the `tokio::select!` in `RcvChans::next`, in source
order. -/
inductive SelBranch where
  | cancelBranch
  | newBranch
  | shutdownBranch
deriving DecidableEq, Repr

/-- Whether a branch of the select is ready to complete on a single poll:
the cancel branch needs a queued cancel/timeout, the new/retry branch needs a
free permit *and* a queued item (permit is acquired before the recv), the
shutdown branch needs the cancelled token. -/
def branchReady (s : LAMState) : SelBranch → Bool
  | .cancelBranch => !s.cancelQueue.isEmpty
  | .newBranch => decide (0 < s.permits) && !s.newRetryQueue.isEmpty
  | .shutdownBranch => s.shutdownCancelled

/-- The branch an unbiased `tokio::select!` completes with: the first ready
branch in the (randomly rotated) poll order. -/
def firstReady (s : LAMState) : List SelBranch → Option SelBranch
  | [] => none
  | b :: rest => if branchReady s b then some b else firstReady s rest

/-- Outcome of one call to `next_pending`. -/
inductive NextOutcome where
  /-- no branch of the select is ready; the future stays pending -/
  | pends
  /-- the shutdown branch won: `next_pending` returns `None` -/
  | closed
  /-- the `expect("Task token must exist")` failed -/
  | panicked
  /-- `next_pending` returned `Some r`, leaving the manager in the given state -/
  | result (r : DispatchOrTimeoutLA) (s : LAMState)

/-- The cancel/timeout arm of `next_pending` (everything after
`NewOrCancel::Cancel(c)` matched), acting on the state with the item already
popped. -/
def handleCancelItem (s : LAMState) (c : CancelOrTimeout) : NextOutcome :=
  match c with
  | .Cancel c => .result (.Dispatch c) s
  | .Timeout run_id resolution dispatch_cancel =>
      if dispatch_cancel then
        match s.id_to_tt ⟨run_id, resolution.seq⟩ with
        | some task_token =>
            let s2 := (s.complete task_token resolution.result).2
            .result
              (.Timeout run_id resolution
                (some ⟨task_token, some (ActivityTaskVariant.Cancel .TimedOut)⟩))
              s2
        | none => .result (.Timeout run_id resolution none) s
      else .result (.Timeout run_id resolution none) s

/-- The new/retry arm of `next_pending` (everything after the select returned
`NewOrCancel::New(n, perm)`), acting on the state with the item already popped
and the permit already deducted from the semaphore. -/
def handleNewItem (s : LAMState) (now : Nat) (new_or_retry : NewOrRetry) : NextOutcome :=
  let na := new_or_retry.laAndAttempt
  let new_la := na.1
  let attempt := na.2
  let orig := new_la
  let id := new_la.laId
  let sa := new_la.schedule_cmd
  -- If this request originated from a local backoff task, clear the entry.
  let s := { s with backing_off_tasks := upd s.backing_off_tasks id none }
  -- If this task sat in the queue for too long, return a timeout instead
  let sat_for := now - new_la.schedule_time
  match sa.schedule_to_start_timeout with
  | some s2s =>
      if sat_for > s2s then
        -- early return: the permit goes out of scope and is released
        .result
          (.Timeout new_la.workflow_exec_info.run_id
            { seq := sa.seq
              result := LocalActivityExecutionResult.timeout .ScheduleToStart
              runtime := sat_for
              attempt := attempt
              backoff := none
              original_schedule_time := some new_la.schedule_time }
            none)
          { s with permits := s.permits + 1 }
      else dispatchNewItem s now orig id sa new_la attempt
  | none => dispatchNewItem s now orig id sa new_la attempt
where
  /-- The tail of the new/retry arm: register the in-flight entry (which keeps
  the permit), arm start-to-close, and build the `Start` dispatch. -/
  dispatchNewItem (s : LAMState) (now : Nat) (orig : NewLocalAct)
      (id : ExecutingLAId) (sa : ValidScheduleLA) (new_la : NewLocalAct)
      (attempt : Nat) : NextOutcome :=
    match s.id_to_tt id with
    | none => .panicked
    | some tt =>
        let s := { s with
          outstanding_activity_tasks := upd s.outstanding_activity_tasks tt
            (some { la_info := orig, dispatch_time := now, attempt := attempt }) }
        let s := { s with
          timeout_tasks := match s.timeout_tasks id with
            | some to_ => upd s.timeout_tasks id (some (to_.mark_started now))
            | none => s.timeout_tasks }
        let cts := sa.close_timeouts.into_sched_and_start
        .result
          (.Dispatch
            ⟨tt, some (ActivityTaskVariant.Start
              { workflow_namespace := s.la_namespace
                workflow_type := new_la.workflow_type
                workflow_execution := some new_la.workflow_exec_info
                activity_id := sa.activity_id
                activity_type := sa.activity_type
                header_fields := sa.headers
                input := sa.arguments
                heartbeat_details := []
                scheduled_time := some new_la.schedule_time
                current_attempt_scheduled_time := some new_la.schedule_time
                started_time := some now
                attempt := attempt
                schedule_to_close_timeout := cts.1
                start_to_close_timeout := cts.2
                heartbeat_timeout := none
                retry_policy := some sa.retry_policy
                is_local := true })⟩)
          s

/-- `LocalActivityManager::next_pending` at wall time `now`, given the poll
order the unbiased select uses on this call. -/
def LAMState.next_pending (s : LAMState) (pollOrder : List SelBranch) (now : Nat) :
    NextOutcome :=
  match firstReady s pollOrder with
  | none => .pends
  | some .shutdownBranch => .closed
  | some .cancelBranch =>
      match s.cancelQueue with
      | [] => .pends
      | c :: rest => handleCancelItem { s with cancelQueue := rest } c
  | some .newBranch =>
      match s.newRetryQueue with
      | [] => .pends
      | n :: rest =>
          handleNewItem
            { s with newRetryQueue := rest, permits := s.permits - 1 } now n

/-- Fire the schedule-to-close timer of the bag stored for `id`, at wall time
`now`: deliver its message on the cancel/timeout channel.  Only a stored,
still-pending timer whose deadline has passed can fire (an aborted task — a
dropped bag — never fires). -/
def fireScheduleToClose (s : LAMState) (id : ExecutingLAId) (now : Nat) :
    Option LAMState :=
  match s.timeout_tasks id with
  | some bag =>
      match bag.sched_to_close_task with
      | some (deadline, dat) =>
          if deadline ≤ now then
            some { s with
              cancelQueue := s.cancelQueue ++ [dat]
              timeout_tasks := upd s.timeout_tasks id
                (some { bag with sched_to_close_task := none }) }
          else none
      | none => none
  | none => none

/-- Fire the armed start-to-close timer of the bag stored for `id`, at wall
time `now`. -/
def fireStartToClose (s : LAMState) (id : ExecutingLAId) (now : Nat) :
    Option LAMState :=
  match s.timeout_tasks id with
  | some bag =>
      match bag.start_to_close_task with
      | some (startedAt, dur, dat) =>
          if startedAt + dur ≤ now then
            some { s with
              cancelQueue := s.cancelQueue ++
                [TimeoutBag.startToCloseMessage startedAt now dat]
              timeout_tasks := upd s.timeout_tasks id
                (some { bag with start_to_close_task := none }) }
          else none
      | none => none
  | none => none

/-- The backoff task registered for `id` finishes its sleep and pushes its
`Retry` message onto the new/retry channel.  The finished `JoinHandle` stays
in `backing_off_tasks` (it is removed at dequeue or by a cancel). -/
def fireBackoff (s : LAMState) (id : ExecutingLAId) : Option LAMState :=
  match s.backing_off_tasks id with
  | some t =>
      if t.fired then none
      else
        some { s with
          newRetryQueue := s.newRetryQueue ++ [t.fireMessage]
          backing_off_tasks := upd s.backing_off_tasks id
            (some { t with fired := true }) }
  | none => none

/-- One transition of the manager: any public operation, the completion of a
spawned timer or backoff task, or `shutdown_and_wait_all_finished` cancelling
the shutdown token once nothing is outstanding. -/
inductive Step : LAMState → LAMState → Prop where
  | enqueue (s : LAMState) (now : Nat) (reqs : List LocalActRequest) :
      Step s (s.enqueue now reqs).2
  | nextPending (s : LAMState) (pollOrder : List SelBranch) (now : Nat)
      (r : DispatchOrTimeoutLA) (s' : LAMState) :
      s.next_pending pollOrder now = .result r s' → Step s s'
  | complete (s : LAMState) (tt : Nat) (status : LocalActivityExecutionResult) :
      Step s (s.complete tt status).2
  | fireS2C (s : LAMState) (id : ExecutingLAId) (now : Nat) (s' : LAMState) :
      fireScheduleToClose s id now = some s' → Step s s'
  | fireSTC (s : LAMState) (id : ExecutingLAId) (now : Nat) (s' : LAMState) :
      fireStartToClose s id now = some s' → Step s s'
  | fireBackoffTask (s : LAMState) (id : ExecutingLAId) (s' : LAMState) :
      fireBackoff s id = some s' → Step s s'
  | shutdownFinished (s : LAMState) :
      (∀ tt, s.outstanding_activity_tasks tt = none) →
      Step s { s with shutdownCancelled := true }

/-- States reachable from a freshly constructed manager by any history of
operations. -/
inductive Reachable : LAMState → Prop where
  | init (max_concurrent : Nat) (ns : String) :
      Reachable (LocalActivityManager.new max_concurrent ns)
  | step {s s' : LAMState} : Reachable s → Step s s' → Reachable s'

/-- The ids currently sitting in the new/retry channel. -/
def LAMState.queueIds (s : LAMState) : List ExecutingLAId :=
  s.newRetryQueue.map NewOrRetry.idOf

/-- The strengthened state invariant the reachability induction carries. -/
structure LAMInv (s : LAMState) : Prop where
  /-- every queued item's id is admitted -/
  queued_admitted : ∀ id, id ∈ s.queueIds → (s.id_to_tt id).isSome
  /-- every outstanding activity's id is admitted -/
  outstanding_admitted : ∀ tt info,
    s.outstanding_activity_tasks tt = some info → (s.id_to_tt info.laId).isSome
  /-- every backing-off id is admitted -/
  backoff_admitted : ∀ id t, s.backing_off_tasks id = some t →
    (s.id_to_tt id).isSome
  /-- an outstanding activity's id is not also queued -/
  outstanding_not_queued : ∀ tt info,
    s.outstanding_activity_tasks tt = some info → info.laId ∉ s.queueIds
  /-- no id is queued twice -/
  queue_nodup : s.queueIds.Nodup
  /-- an unfired backoff task's id is not queued -/
  backoff_not_queued : ∀ id t, s.backing_off_tasks id = some t →
    t.fired = false → id ∉ s.queueIds
  /-- at most one outstanding entry per id -/
  outstanding_unique : ∀ tt1 tt2 i1 i2,
    s.outstanding_activity_tasks tt1 = some i1 →
    s.outstanding_activity_tasks tt2 = some i2 → i1.laId = i2.laId → tt1 = tt2
  /-- an outstanding activity's id has no backoff entry -/
  outstanding_no_backoff : ∀ tt info,
    s.outstanding_activity_tasks tt = some info →
    s.backing_off_tasks info.laId = none
  /-- a backoff entry's payload belongs to the id it is stored under -/
  backoff_key : ∀ id t, s.backing_off_tasks id = some t →
    t.in_flight.laId = id

/-- The returned value of a completed `next_pending` call, if any. -/
def NextOutcome.value : NextOutcome → Option DispatchOrTimeoutLA
  | .result r _ => some r
  | _ => none

/-- The state a completed `next_pending` call leaves behind, if any. -/
def NextOutcome.stateAfter : NextOutcome → Option LAMState
  | .result _ s => some s
  | _ => none

/-- Discriminator: is this a dispatch of a `Start` task? -/
def DispatchOrTimeoutLA.isStartDispatch : DispatchOrTimeoutLA → Bool
  | .Dispatch ⟨_, some (.Start _)⟩ => true
  | _ => false

/-- Discriminator: is this a dispatch of a `Cancel` task? -/
def DispatchOrTimeoutLA.isCancelDispatch : DispatchOrTimeoutLA → Bool
  | .Dispatch ⟨_, some (.Cancel _)⟩ => true
  | _ => false

/-- Zero or more transitions. -/
def Steps : LAMState → LAMState → Prop := Relation.ReflTransGen Step

/-- An id that is recorded in `id_to_tt` although it is neither queued, nor
outstanding, nor backing off (the situation behind claim C10): such an id is
permanently "admitted" and blocks all future admissions of the same id. -/
def StuckId (id : ExecutingLAId) (s : LAMState) : Prop :=
  (s.id_to_tt id).isSome
  ∧ id ∉ s.queueIds
  ∧ (∀ tt info, s.outstanding_activity_tasks tt = some info → info.laId ≠ id)
  ∧ s.backing_off_tasks id = none

/-! ## Concrete fixtures (used by witnesses and counterexamples) -/

/-- A retry policy that never retries. -/
def polNone : RetryPolicy := fun _ _ => none

/-- A retry policy with a constant 1-unit backoff. -/
def polOne : RetryPolicy := fun _ _ => some 1

/-- A retry policy with a constant 10-unit backoff. -/
def polTen : RetryPolicy := fun _ _ => some 10

/-- A plain activity: seq 1 in run `r`, no timeouts, never retried. -/
def demoAct : NewLocalAct :=
  { schedule_cmd := { seq := 1, retry_policy := polNone, local_retry_threshold := 0 }
    workflow_exec_info := { run_id := "r" }
    schedule_time := 0 }

/-- `demoAct`'s id. -/
def demoId : ExecutingLAId := ⟨"r", 1⟩

/-- Seq 2 in run `r` with a 5-unit schedule-to-close timeout. -/
def demoActS2C : NewLocalAct :=
  { schedule_cmd := { seq := 2, retry_policy := polNone, local_retry_threshold := 0
                      close_timeouts := .ScheduleOnly 5 }
    workflow_exec_info := { run_id := "r" }
    schedule_time := 0 }

/-- `demoActS2C`'s id. -/
def demoIdS2C : ExecutingLAId := ⟨"r", 2⟩

/-- Seq 3 in run `r`, retried locally after a 1-unit backoff (threshold 5). -/
def demoActRetry : NewLocalAct :=
  { schedule_cmd := { seq := 3, retry_policy := polOne, local_retry_threshold := 5 }
    workflow_exec_info := { run_id := "r" }
    schedule_time := 0 }

/-- `demoActRetry`'s id. -/
def demoIdRetry : ExecutingLAId := ⟨"r", 3⟩

/-- Seq 4 in run `r` with a 5-unit schedule-to-start timeout. -/
def demoActS2S : NewLocalAct :=
  { schedule_cmd := { seq := 4, retry_policy := polNone, local_retry_threshold := 0
                      schedule_to_start_timeout := some 5 }
    workflow_exec_info := { run_id := "r" }
    schedule_time := 0 }

/-- `demoActS2S`'s id. -/
def demoIdS2S : ExecutingLAId := ⟨"r", 4⟩

/-- Seq 5 in run `r` with a 100-unit start-to-close timeout. -/
def demoActStC : NewLocalAct :=
  { schedule_cmd := { seq := 5, retry_policy := polNone, local_retry_threshold := 0
                      close_timeouts := .StartOnly 100 }
    workflow_exec_info := { run_id := "r" }
    schedule_time := 0 }

/-- `demoActStC`'s id. -/
def demoIdStC : ExecutingLAId := ⟨"r", 5⟩

/-- Seq 6 in run `r`, whose 10-unit backoff exceeds its threshold of 5. -/
def demoActTimer : NewLocalAct :=
  { schedule_cmd := { seq := 6, retry_policy := polTen, local_retry_threshold := 5 }
    workflow_exec_info := { run_id := "r" }
    schedule_time := 0 }

/-- `demoActTimer`'s id. -/
def demoIdTimer : ExecutingLAId := ⟨"r", 6⟩

/-- A fresh manager with one permit. -/
def demoManager : LAMState := LocalActivityManager.new 1 "ns"

/-- A poll order of the select that checks the cancel/timeout branch first. -/
def cancelFirst : List SelBranch := [.cancelBranch, .newBranch, .shutdownBranch]

/-- The rotation of the select's poll order that starts at the new/retry
branch (one of the three rotations unbiased `tokio::select!` draws from). -/
def newFirst : List SelBranch := [.newBranch, .shutdownBranch, .cancelBranch]

/-- `demoAct` admitted on a fresh manager. -/
def demoQueued : LAMState := (demoManager.enqueue 0 [.New demoAct]).2

/-- `demoActRetry` admitted and dispatched. -/
def demoDispatched : LAMState :=
  ((demoManager.enqueue 0 [.New demoActRetry]).2.next_pending cancelFirst 0).stateAfter.getD
    demoManager

/-- `demoActRetry` dispatched and then failed, entering local backoff. -/
def demoBackingOff : LAMState := (demoDispatched.complete 1 (.Failed {})).2

/-- `demoActStC` admitted and dispatched (start-to-close timer armed). -/
def demoDispatchedStC : LAMState :=
  ((demoManager.enqueue 0 [.New demoActStC]).2.next_pending cancelFirst 0).stateAfter.getD
    demoManager

/-- `demoActTimer` admitted and dispatched. -/
def demoDispatchedTimer : LAMState :=
  ((demoManager.enqueue 0 [.New demoActTimer]).2.next_pending cancelFirst 0).stateAfter.getD
    demoManager

/-- Scenario for C1: `demoActS2C` admitted 10 units late, so `enqueue`
returned an immediate pre-queue `TimedOut(ScheduleToClose)` resolution. -/
def c1StateA : LAMState := (demoManager.enqueue 10 [.New demoActS2C]).2

/-- Scenario for C1: `demoActRetry` dispatched, failed into local backoff and
then cancelled, so `enqueue` returned an immediate `Cancelled` resolution. -/
def c1StateB : LAMState := (demoBackingOff.enqueue 0 [.Cancel demoIdRetry]).2

/-- Scenario for C1: `demoActS2S` dequeued 10 units late, so `next_pending`
emitted a `ScheduleToStart` timeout. -/
def c1StateC : LAMState :=
  ((demoManager.enqueue 0 [.New demoActS2S]).2.next_pending cancelFirst 10).stateAfter.getD
    demoManager

/-! ## Helper lemmas -/

theorem upd_same {α β : Type} [DecidableEq α] (f : α → Option β) (k : α)
    (v : Option β) : upd f k v k = v := by
  simp [upd]

theorem upd_ne {α β : Type} [DecidableEq α] (f : α → Option β) (k : α)
    (v : Option β) {x : α} (h : x ≠ k) : upd f k v x = f x := by
  simp [upd, h]

theorem upd_isSome {α β : Type} [DecidableEq α] {f : α → Option β} {k : α}
    {v : Option β} {x : α} (h : (f x).isSome) (hv : v.isSome) :
    (upd f k v x).isSome := by
  unfold upd; split <;> simp_all

theorem nodup_append_one {α : Type} {l : List α} {x : α} (h : l.Nodup)
    (hx : x ∉ l) : (l ++ [x]).Nodup := by
  simp [List.nodup_append, h, hx]

theorem firstReady_ready {s : LAMState} {l : List SelBranch} {b : SelBranch}
    (h : firstReady s l = some b) : branchReady s b = true := by
  induction l with
  | nil => simp [firstReady] at h
  | cons hd tl ih =>
      by_cases hr : branchReady s hd
      · simp [firstReady, hr] at h
        exact h ▸ hr
      · simp [firstReady, hr] at h
        exact ih h

/-! ## Claim C9 -/

/-- C9: a `complete` call whose token is not outstanding returns `Untracked`
and leaves the state — in particular all four maps and the token counter —
entirely unchanged. -/
theorem C9_untracked_complete_is_noop (s : LAMState) (tt : Nat)
    (status : LocalActivityExecutionResult)
    (h : s.outstanding_activity_tasks tt = none) :
    s.complete tt status = (.Untracked, s) := by
  simp [LAMState.complete, h]

/-- Witness for C9 at a concrete input: token 7 on a fresh manager. -/
theorem C9_untracked_complete_is_noop_witness :
    (LocalActivityManager.new 3 "ns").complete 7
      (.Completed {}) = (.Untracked, LocalActivityManager.new 3 "ns") :=
  C9_untracked_complete_is_noop (LocalActivityManager.new 3 "ns") 7
    (.Completed {}) rfl

/-! ## Claim C5 -/

/-- C5: enqueuing a `New` request whose `(run_id, seq_num)` is already in
`id_to_tt` is a silent no-op: the loop iteration returns the state and the
resolution vector unchanged (so nothing is queued, no map changes, and no
resolution is emitted for it), and a singleton batch returns `([], s)`. -/
theorem C5_enqueue_existing_id_dropped (now : Nat) (s : LAMState)
    (acc : List LocalActivityResolution) (act : NewLocalAct)
    (h : (s.id_to_tt act.laId).isSome) :
    enqueueOne now (s, acc) (.New act) = (s, acc)
    ∧ s.enqueue now [.New act] = ([], s) := by
  constructor
  · simp [enqueueOne, h]
  · simp [LAMState.enqueue, enqueueOne, h]

/-- Witness for C5 at a concrete input: the same activity enqueued a second
time while admitted. -/
theorem C5_enqueue_existing_id_dropped_witness :
    (demoQueued.id_to_tt demoAct.laId).isSome
    ∧ enqueueOne 0 (demoQueued, []) (.New demoAct) = (demoQueued, [])
    ∧ demoQueued.enqueue 0 [.New demoAct] = ([], demoQueued) :=
  ⟨by decide,
   (C5_enqueue_existing_id_dropped 0 demoQueued [] demoAct (by decide)).1,
   (C5_enqueue_existing_id_dropped 0 demoQueued [] demoAct (by decide)).2⟩

/-! ## Claim C6 -/

/-- C6: a `New` request whose configured schedule-to-close timeout, minus the
wall time already elapsed since `schedule_time`, is non-positive at admission
makes `enqueue` return an immediate `TimedOut(ScheduleToClose)` resolution,
and the activity is never queued: the new/retry channel is untouched. -/
theorem C6_prequeue_schedule_to_close_timeout (now : Nat) (s : LAMState)
    (act : NewLocalAct) (s2c : Nat)
    (hfresh : s.id_to_tt act.laId = none)
    (hs2c : act.schedule_cmd.close_timeouts.into_sched_and_start.1 = some s2c)
    (helapsed : s2c ≤ now - act.schedule_time) :
    (s.enqueue now [.New act]).1 =
      [{ seq := act.schedule_cmd.seq
         result := LocalActivityExecutionResult.timeout .ScheduleToClose
         runtime := 0
         attempt := act.schedule_cmd.attempt
         backoff := none
         original_schedule_time := some act.schedule_time }]
    ∧ (s.enqueue now [.New act]).2.newRetryQueue = s.newRetryQueue := by
  have hz : s2c - (now - act.schedule_time) = 0 := Nat.sub_eq_zero_of_le helapsed
  constructor <;>
    simp [LAMState.enqueue, enqueueOne, TimeoutBag.new, hfresh, hs2c, hz,
      LocalActivityExecutionResult.timeout]

/-- Witness for C6 at a concrete input: a 5-unit schedule-to-close timeout,
admission attempted 10 units after scheduling. -/
theorem C6_prequeue_schedule_to_close_timeout_witness :
    (demoManager.enqueue 10 [.New demoActS2C]).1 =
      [{ seq := 2
         result := LocalActivityExecutionResult.timeout .ScheduleToClose
         runtime := 0
         attempt := 0
         backoff := none
         original_schedule_time := some 0 }]
    ∧ (demoManager.enqueue 10 [.New demoActS2C]).2.newRetryQueue =
        demoManager.newRetryQueue :=
  C6_prequeue_schedule_to_close_timeout 10 demoManager demoActS2C 5 rfl rfl
    (by decide)

/-! ## Claim C8 -/

/-- C8: `enqueue(Cancel(id))` for an id with an active backoff task removes
(aborts) the backoff entry and returns an immediate `Cancelled` resolution
with runtime 0, attempt 0 and no backoff; the state changes in no other way —
in particular nothing is pushed onto the cancel/timeout channel, so the
executor is never involved. -/
theorem C8_cancel_during_backoff (now : Nat) (s : LAMState)
    (id : ExecutingLAId) (t : BackoffTask)
    (h : s.backing_off_tasks id = some t) :
    s.enqueue now [.Cancel id] =
      ([{ seq := id.seq_num
          result := LocalActivityExecutionResult.Cancelled
            (Cancellation.from_details none)
          runtime := 0
          attempt := 0
          backoff := none
          original_schedule_time := none }],
       { s with backing_off_tasks := upd s.backing_off_tasks id none }) := by
  simp [LAMState.enqueue, enqueueOne, h]

/-- Witness for C8 at a concrete input: cancelling `demoActRetry` while it is
backing off. -/
theorem C8_cancel_during_backoff_witness :
    demoBackingOff.enqueue 0 [.Cancel demoIdRetry] =
      ([{ seq := 3
          result := LocalActivityExecutionResult.Cancelled
            (Cancellation.from_details none)
          runtime := 0
          attempt := 0
          backoff := none
          original_schedule_time := none }],
       { demoBackingOff with
           backing_off_tasks := upd demoBackingOff.backing_off_tasks demoIdRetry none }) :=
  C8_cancel_during_backoff 0 demoBackingOff demoIdRetry
    { fired := false, backoff := 1, in_flight := demoActRetry, attempt := 2 }
    (by rfl)

/-! ## Claim C4 -/

/-- C4: completing an outstanding activity with `Failed(f)` when the retry
policy yields `Some(backoff)`: a backoff strictly above the local retry
threshold returns `LangDoesTimerBackoff(backoff, info)`; a backoff less than
or equal to the threshold (equality included) mints a fresh token for the same
id, re-inserts it into `id_to_tt`, registers a backoff task whose completion
sends a `Retry` record carrying `attempt + 1`, and returns `WillBeRetried`. -/
theorem C4_failed_retry_split (s : LAMState) (tt : Nat)
    (info : LocalInFlightActInfo) (f : ActFail) (backoff : Nat)
    (h : s.outstanding_activity_tasks tt = some info)
    (hr : info.la_info.schedule_cmd.retry_policy.should_retry info.attempt
      f.app_failure = some backoff) :
    (info.la_info.schedule_cmd.local_retry_threshold < backoff →
      (s.complete tt (.Failed f)).1 = .LangDoesTimerBackoff backoff info)
    ∧ (backoff ≤ info.la_info.schedule_cmd.local_retry_threshold →
        (s.complete tt (.Failed f)).1 = .WillBeRetried
        ∧ (s.complete tt (.Failed f)).2.id_to_tt info.laId =
            some (genNextToken s.next_tt_num)
        ∧ (s.complete tt (.Failed f)).2.backing_off_tasks info.laId =
            some { fired := false, backoff := backoff,
                   in_flight := info.la_info, attempt := info.attempt + 1 }
        ∧ (BackoffTask.fireMessage
            { fired := false, backoff := backoff,
              in_flight := info.la_info, attempt := info.attempt + 1 }) =
            NewOrRetry.Retry info.la_info (info.attempt + 1)) := by
  constructor
  · intro hgt
    simp [LAMState.complete, h, hr, hgt]
  · intro hle
    have hngt : ¬ info.la_info.schedule_cmd.local_retry_threshold < backoff :=
      not_lt.mpr hle
    refine ⟨?_, ?_, ?_, rfl⟩ <;>
      simp [LAMState.complete, h, hr, hngt, upd_same, BackoffTask.fireMessage]

/-- Witness for C4 at concrete inputs: `demoActRetry` (backoff 1 ≤ threshold
5) is retried locally with a fresh token and attempt 2; `demoActTimer`
(backoff 10 > threshold 5) is delegated to a workflow timer. -/
theorem C4_failed_retry_split_witness :
    ((demoDispatched.complete 1 (.Failed {})).1 = .WillBeRetried
      ∧ (demoDispatched.complete 1 (.Failed {})).2.id_to_tt demoIdRetry = some 2
      ∧ (demoDispatched.complete 1 (.Failed {})).2.backing_off_tasks demoIdRetry =
          some { fired := false, backoff := 1, in_flight := demoActRetry, attempt := 2 }
      ∧ (BackoffTask.fireMessage
          { fired := false, backoff := 1, in_flight := demoActRetry, attempt := 2 }) =
          NewOrRetry.Retry demoActRetry 2)
    ∧ (demoDispatchedTimer.complete 1 (.Failed {})).1 =
        .LangDoesTimerBackoff 10
          { la_info := demoActTimer, dispatch_time := 0, attempt := 1 } := by
  constructor
  · exact (C4_failed_retry_split demoDispatched 1
      { la_info := demoActRetry, dispatch_time := 0, attempt := 1 } {} 1
      (by rfl) (by rfl)).2 (by decide)
  · exact (C4_failed_retry_split demoDispatchedTimer 1
      { la_info := demoActTimer, dispatch_time := 0, attempt := 1 } {} 10
      (by rfl) (by rfl)).1 (by decide)

/-! ## Claim C7 -/

/-- C7: dequeuing a new/retry item whose configured schedule-to-start timeout
is strictly exceeded by the wall time elapsed since `schedule_time` makes
`next_pending` return `Timeout` with result `TimedOut(ScheduleToStart)`,
runtime equal to the elapsed time and no task, leaving
`outstanding_activity_tasks` untouched and releasing the acquired permit
(the early return drops it, so the permit count is back to its old value). -/
theorem C7_schedule_to_start_timeout_at_dequeue (s : LAMState)
    (pollOrder : List SelBranch) (now : Nat) (n : NewOrRetry)
    (rest : List NewOrRetry) (s2s : Nat)
    (hq : s.newRetryQueue = n :: rest)
    (hsel : firstReady s pollOrder = some .newBranch)
    (hs2s : n.laAndAttempt.1.schedule_cmd.schedule_to_start_timeout = some s2s)
    (hlate : s2s < now - n.laAndAttempt.1.schedule_time) :
    s.next_pending pollOrder now =
      .result
        (.Timeout n.laAndAttempt.1.workflow_exec_info.run_id
          { seq := n.laAndAttempt.1.schedule_cmd.seq
            result := LocalActivityExecutionResult.timeout .ScheduleToStart
            runtime := now - n.laAndAttempt.1.schedule_time
            attempt := n.laAndAttempt.2
            backoff := none
            original_schedule_time := some n.laAndAttempt.1.schedule_time }
          none)
        { s with
            newRetryQueue := rest
            backing_off_tasks := upd s.backing_off_tasks n.laAndAttempt.1.laId none
            permits := s.permits - 1 + 1 }
    ∧ s.permits - 1 + 1 = s.permits := by
  have hready : branchReady s .newBranch = true := firstReady_ready hsel
  have hpos : 0 < s.permits := by
    simp [branchReady] at hready
    exact hready.1
  refine ⟨?_, Nat.sub_add_cancel hpos⟩
  simp [LAMState.next_pending, hsel, hq, handleNewItem, hs2s, hlate]

/-- Witness for C7 at a concrete input: `demoActS2S` (schedule-to-start 5)
dequeued 10 units after scheduling. -/
theorem C7_schedule_to_start_timeout_at_dequeue_witness :
    (demoManager.enqueue 0 [.New demoActS2S]).2.next_pending cancelFirst 10 =
      .result
        (.Timeout "r"
          { seq := 4
            result := LocalActivityExecutionResult.timeout .ScheduleToStart
            runtime := 10
            attempt := 1
            backoff := none
            original_schedule_time := some 0 }
          none)
        { (demoManager.enqueue 0 [.New demoActS2S]).2 with
            newRetryQueue := []
            backing_off_tasks :=
              upd (demoManager.enqueue 0 [.New demoActS2S]).2.backing_off_tasks
                demoIdS2S none
            permits := (demoManager.enqueue 0 [.New demoActS2S]).2.permits - 1 + 1 }
    ∧ (demoManager.enqueue 0 [.New demoActS2S]).2.permits - 1 + 1 =
        (demoManager.enqueue 0 [.New demoActS2S]).2.permits :=
  C7_schedule_to_start_timeout_at_dequeue
    (demoManager.enqueue 0 [.New demoActS2S]).2 cancelFirst 10
    (.New demoActS2S) [] 5 rfl (by decide) rfl (by decide)

/-! ## Claim C2 -/

/-- C2 (evaluation at the failing input): the claim — backed by the source's
own comment that `timeout_tasks` holds "activities which are currently in the
queue or dispatched" — says a terminal `complete` removes the activity's
`TimeoutBag` from `timeout_tasks`.  The code never removes it: completing
`demoActStC` (outstanding, with its start-to-close timer armed) with
`Completed` does signal the shutdown waiter and return `Report`, but leaves
the bag — its armed start-to-close timer included — in `timeout_tasks`. -/
theorem C2_terminal_complete_leaves_timeout_bag :
    (demoDispatchedStC.complete 1 (.Completed {})).1.isReport = true
    ∧ (demoDispatchedStC.complete 1 (.Completed {})).2.notifyCount =
        demoDispatchedStC.notifyCount + 1
    ∧ ((demoDispatchedStC.complete 1 (.Completed {})).2.timeout_tasks
        demoIdStC).isSome = true
    ∧ (((demoDispatchedStC.complete 1 (.Completed {})).2.timeout_tasks
        demoIdStC).map (fun b => b.start_to_close_task.isSome)) = some true
    ∧ (demoDispatchedStC.complete 1 (.Completed {})).2.id_to_tt demoIdStC = none :=
  ⟨rfl, rfl, rfl, rfl, by decide⟩

/-! ## Claim C3 -/

/-- C3 (evaluation at the failing input): the claim — and the source's own
comment "Cancels need a different queue since they should be taken first" —
says that with a cancel/timeout event and a new/retry item (plus a free
permit) simultaneously ready, `next_pending` never returns the new/retry
item.  `RcvChans::next` uses `tokio::select!` without `biased`, which polls
its branches starting at a random rotation; under the rotation that polls the
new/retry branch first, `next_pending` returns the `Start` dispatch of the
new item even though a cancel is queued (and the cancel stays queued).  Under
the rotation that polls the cancel branch first, the cancel wins — the
priority holds only per-rotation, not always. -/
theorem C3_unbiased_select_can_prefer_new_item :
    ((demoQueued.enqueue 0 [.Cancel demoId]).2.cancelQueue.length = 1
      ∧ (demoQueued.enqueue 0 [.Cancel demoId]).2.newRetryQueue.length = 1
      ∧ 0 < (demoQueued.enqueue 0 [.Cancel demoId]).2.permits)
    ∧ (((demoQueued.enqueue 0 [.Cancel demoId]).2.next_pending newFirst 0).value.map
        DispatchOrTimeoutLA.isStartDispatch) = some true
    ∧ (((demoQueued.enqueue 0 [.Cancel demoId]).2.next_pending newFirst
        0).stateAfter.map (fun s => s.cancelQueue.length)) = some 1
    ∧ (((demoQueued.enqueue 0 [.Cancel demoId]).2.next_pending cancelFirst 0).value.map
        DispatchOrTimeoutLA.isCancelDispatch) = some true := by
  refine ⟨⟨by decide, by decide, by decide⟩, by decide, by decide, by decide⟩

/-! ## Invariant preservation -/

theorem inv_complete_core (s s' : LAMState) (tt : Nat)
    (info : LocalInFlightActInfo) (h : LAMInv s)
    (hout : s.outstanding_activity_tasks tt = some info)
    (h1 : s'.outstanding_activity_tasks = upd s.outstanding_activity_tasks tt none)
    (h2 : s'.id_to_tt = upd s.id_to_tt info.laId none)
    (h3 : s'.backing_off_tasks = s.backing_off_tasks)
    (h4 : s'.newRetryQueue = s.newRetryQueue) :
    LAMInv s' := by
  have hq : s'.queueIds = s.queueIds := by simp [LAMState.queueIds, h4]
  refine ⟨?_, ?_, ?_, ?_, ?_, ?_, ?_, ?_, ?_⟩
  · intro id hid
    rw [hq] at hid
    rw [h2]
    by_cases hx : id = info.laId
    · subst hx; exact absurd hid (h.outstanding_not_queued tt info hout)
    · rw [upd_ne _ _ _ hx]; exact h.queued_admitted id hid
  · intro tt2 info2 ho2
    rw [h1] at ho2
    by_cases htt : tt2 = tt
    · subst htt; rw [upd_same] at ho2; simp at ho2
    · rw [upd_ne _ _ _ htt] at ho2
      rw [h2]
      by_cases hx : info2.laId = info.laId
      · exact absurd (h.outstanding_unique tt2 tt info2 info ho2 hout hx) htt
      · rw [upd_ne _ _ _ hx]; exact h.outstanding_admitted tt2 info2 ho2
  · intro id t hb
    rw [h3] at hb
    rw [h2]
    by_cases hx : id = info.laId
    · subst hx; rw [h.outstanding_no_backoff tt info hout] at hb; simp at hb
    · rw [upd_ne _ _ _ hx]; exact h.backoff_admitted id t hb
  · intro tt2 info2 ho2
    rw [h1] at ho2
    by_cases htt : tt2 = tt
    · subst htt; rw [upd_same] at ho2; simp at ho2
    · rw [upd_ne _ _ _ htt] at ho2; rw [hq]
      exact h.outstanding_not_queued tt2 info2 ho2
  · rw [hq]; exact h.queue_nodup
  · intro id t hb hf
    rw [h3] at hb; rw [hq]; exact h.backoff_not_queued id t hb hf
  · intro t1 t2 i1 i2 ho1 ho2 hid
    rw [h1] at ho1 ho2
    by_cases h1t : t1 = tt
    · subst h1t; rw [upd_same] at ho1; simp at ho1
    · by_cases h2t : t2 = tt
      · subst h2t; rw [upd_same] at ho2; simp at ho2
      · rw [upd_ne _ _ _ h1t] at ho1; rw [upd_ne _ _ _ h2t] at ho2
        exact h.outstanding_unique t1 t2 i1 i2 ho1 ho2 hid
  · intro tt2 info2 ho2
    rw [h1] at ho2
    by_cases htt : tt2 = tt
    · subst htt; rw [upd_same] at ho2; simp at ho2
    · rw [upd_ne _ _ _ htt] at ho2; rw [h3]
      exact h.outstanding_no_backoff tt2 info2 ho2
  · intro id t hb
    rw [h3] at hb; exact h.backoff_key id t hb

theorem inv_complete_retry_core (s s' : LAMState) (tt tok : Nat)
    (info : LocalInFlightActInfo) (task : BackoffTask) (h : LAMInv s)
    (hout : s.outstanding_activity_tasks tt = some info)
    (hkey : task.in_flight.laId = info.laId)
    (h1 : s'.outstanding_activity_tasks = upd s.outstanding_activity_tasks tt none)
    (h2 : s'.id_to_tt = upd (upd s.id_to_tt info.laId none) info.laId (some tok))
    (h3 : s'.backing_off_tasks = upd s.backing_off_tasks info.laId (some task))
    (h4 : s'.newRetryQueue = s.newRetryQueue) :
    LAMInv s' := by
  have hq : s'.queueIds = s.queueIds := by simp [LAMState.queueIds, h4]
  refine ⟨?_, ?_, ?_, ?_, ?_, ?_, ?_, ?_, ?_⟩
  · intro id hid
    rw [hq] at hid
    rw [h2]
    by_cases hx : id = info.laId
    · subst hx; rw [upd_same]; rfl
    · rw [upd_ne _ _ _ hx, upd_ne _ _ _ hx]; exact h.queued_admitted id hid
  · intro tt2 info2 ho2
    rw [h1] at ho2
    by_cases htt : tt2 = tt
    · subst htt; rw [upd_same] at ho2; simp at ho2
    · rw [upd_ne _ _ _ htt] at ho2
      rw [h2]
      by_cases hx : info2.laId = info.laId
      · rw [hx, upd_same]; rfl
      · rw [upd_ne _ _ _ hx, upd_ne _ _ _ hx]
        exact h.outstanding_admitted tt2 info2 ho2
  · intro id t hb
    rw [h3] at hb
    rw [h2]
    by_cases hx : id = info.laId
    · subst hx; rw [upd_same]; rfl
    · rw [upd_ne _ _ _ hx, upd_ne _ _ _ hx]
      rw [upd_ne _ _ _ hx] at hb
      exact h.backoff_admitted id t hb
  · intro tt2 info2 ho2
    rw [h1] at ho2
    by_cases htt : tt2 = tt
    · subst htt; rw [upd_same] at ho2; simp at ho2
    · rw [upd_ne _ _ _ htt] at ho2; rw [hq]
      exact h.outstanding_not_queued tt2 info2 ho2
  · rw [hq]; exact h.queue_nodup
  · intro id t hb hf
    rw [h3] at hb; rw [hq]
    by_cases hx : id = info.laId
    · subst hx; exact h.outstanding_not_queued tt info hout
    · rw [upd_ne _ _ _ hx] at hb; exact h.backoff_not_queued id t hb hf
  · intro t1 t2 i1 i2 ho1 ho2 hid
    rw [h1] at ho1 ho2
    by_cases h1t : t1 = tt
    · subst h1t; rw [upd_same] at ho1; simp at ho1
    · by_cases h2t : t2 = tt
      · subst h2t; rw [upd_same] at ho2; simp at ho2
      · rw [upd_ne _ _ _ h1t] at ho1; rw [upd_ne _ _ _ h2t] at ho2
        exact h.outstanding_unique t1 t2 i1 i2 ho1 ho2 hid
  · intro tt2 info2 ho2
    rw [h1] at ho2
    by_cases htt : tt2 = tt
    · subst htt; rw [upd_same] at ho2; simp at ho2
    · rw [upd_ne _ _ _ htt] at ho2; rw [h3]
      by_cases hx : info2.laId = info.laId
      · exact absurd (h.outstanding_unique tt2 tt info2 info ho2 hout hx) htt
      · rw [upd_ne _ _ _ hx]; exact h.outstanding_no_backoff tt2 info2 ho2
  · intro id t hb
    rw [h3] at hb
    by_cases hx : id = info.laId
    · subst hx; rw [upd_same] at hb
      cases hb; rw [hkey]
    · rw [upd_ne _ _ _ hx] at hb; exact h.backoff_key id t hb

theorem inv_complete (s : LAMState) (tt : Nat)
    (status : LocalActivityExecutionResult) (h : LAMInv s) :
    LAMInv (s.complete tt status).2 := by
  cases hout : s.outstanding_activity_tasks tt with
  | none => simpa [LAMState.complete, hout] using h
  | some info =>
      cases status with
      | Completed x =>
          exact inv_complete_core s _ tt info h hout
            (by simp [LAMState.complete, hout]) (by simp [LAMState.complete, hout])
            (by simp [LAMState.complete, hout]) (by simp [LAMState.complete, hout])
      | TimedOut x =>
          exact inv_complete_core s _ tt info h hout
            (by simp [LAMState.complete, hout]) (by simp [LAMState.complete, hout])
            (by simp [LAMState.complete, hout]) (by simp [LAMState.complete, hout])
      | Cancelled x =>
          exact inv_complete_core s _ tt info h hout
            (by simp [LAMState.complete, hout]) (by simp [LAMState.complete, hout])
            (by simp [LAMState.complete, hout]) (by simp [LAMState.complete, hout])
      | Failed f =>
          cases hr : info.la_info.schedule_cmd.retry_policy.should_retry
              info.attempt f.app_failure with
          | none =>
              exact inv_complete_core s _ tt info h hout
                (by simp [LAMState.complete, hout, hr])
                (by simp [LAMState.complete, hout, hr])
                (by simp [LAMState.complete, hout, hr])
                (by simp [LAMState.complete, hout, hr])
          | some backoff =>
              by_cases hgt : info.la_info.schedule_cmd.local_retry_threshold < backoff
              · exact inv_complete_core s _ tt info h hout
                  (by simp [LAMState.complete, hout, hr, hgt])
                  (by simp [LAMState.complete, hout, hr, hgt])
                  (by simp [LAMState.complete, hout, hr, hgt])
                  (by simp [LAMState.complete, hout, hr, hgt])
              · exact inv_complete_retry_core s _ tt (genNextToken s.next_tt_num) info
                  { fired := false, backoff := backoff,
                    in_flight := info.la_info, attempt := info.attempt + 1 }
                  h hout rfl
                  (by simp [LAMState.complete, hout, hr, hgt])
                  (by simp [LAMState.complete, hout, hr, hgt])
                  (by simp [LAMState.complete, hout, hr, hgt])
                  (by simp [LAMState.complete, hout, hr, hgt])

theorem laAndAttempt_laId (n : NewOrRetry) : n.laAndAttempt.1.laId = n.idOf := by
  cases n <;> rfl

theorem inv_of_eq (s s' : LAMState) (h : LAMInv s)
    (h1 : s'.outstanding_activity_tasks = s.outstanding_activity_tasks)
    (h2 : s'.id_to_tt = s.id_to_tt)
    (h3 : s'.backing_off_tasks = s.backing_off_tasks)
    (h4 : s'.newRetryQueue = s.newRetryQueue) :
    LAMInv s' := by
  have hq : s'.queueIds = s.queueIds := by simp [LAMState.queueIds, h4]
  refine ⟨?_, ?_, ?_, ?_, ?_, ?_, ?_, ?_, ?_⟩
  · intro id hid; rw [h2]; exact h.queued_admitted id (hq ▸ hid)
  · intro tt info ho; rw [h2]
    exact h.outstanding_admitted tt info (h1 ▸ ho)
  · intro id t hb; rw [h2]; exact h.backoff_admitted id t (h3 ▸ hb)
  · intro tt info ho; rw [hq]
    exact h.outstanding_not_queued tt info (h1 ▸ ho)
  · rw [hq]; exact h.queue_nodup
  · intro id t hb hf; rw [hq]; exact h.backoff_not_queued id t (h3 ▸ hb) hf
  · intro t1 t2 i1 i2 ho1 ho2 hid
    exact h.outstanding_unique t1 t2 i1 i2 (h1 ▸ ho1) (h1 ▸ ho2) hid
  · intro tt info ho; rw [h3]
    exact h.outstanding_no_backoff tt info (h1 ▸ ho)
  · intro id t hb; exact h.backoff_key id t (h3 ▸ hb)

theorem inv_remove_backoff (s s' : LAMState) (idk : ExecutingLAId) (h : LAMInv s)
    (h1 : s'.outstanding_activity_tasks = s.outstanding_activity_tasks)
    (h2 : s'.id_to_tt = s.id_to_tt)
    (h3 : s'.backing_off_tasks = upd s.backing_off_tasks idk none)
    (h4 : s'.newRetryQueue = s.newRetryQueue) :
    LAMInv s' := by
  have hq : s'.queueIds = s.queueIds := by simp [LAMState.queueIds, h4]
  refine ⟨?_, ?_, ?_, ?_, ?_, ?_, ?_, ?_, ?_⟩
  · intro id hid; rw [h2]; exact h.queued_admitted id (hq ▸ hid)
  · intro tt info ho; rw [h2]
    exact h.outstanding_admitted tt info (h1 ▸ ho)
  · intro id t hb
    rw [h3] at hb
    by_cases hx : id = idk
    · subst hx; rw [upd_same] at hb; simp at hb
    · rw [upd_ne _ _ _ hx] at hb; rw [h2]; exact h.backoff_admitted id t hb
  · intro tt info ho; rw [hq]
    exact h.outstanding_not_queued tt info (h1 ▸ ho)
  · rw [hq]; exact h.queue_nodup
  · intro id t hb hf
    rw [h3] at hb
    by_cases hx : id = idk
    · subst hx; rw [upd_same] at hb; simp at hb
    · rw [upd_ne _ _ _ hx] at hb; rw [hq]; exact h.backoff_not_queued id t hb hf
  · intro t1 t2 i1 i2 ho1 ho2 hid
    exact h.outstanding_unique t1 t2 i1 i2 (h1 ▸ ho1) (h1 ▸ ho2) hid
  · intro tt info ho
    rw [h3]
    by_cases hx : info.laId = idk
    · rw [hx, upd_same]
    · rw [upd_ne _ _ _ hx]; exact h.outstanding_no_backoff tt info (h1 ▸ ho)
  · intro id t hb
    rw [h3] at hb
    by_cases hx : id = idk
    · subst hx; rw [upd_same] at hb; simp at hb
    · rw [upd_ne _ _ _ hx] at hb; exact h.backoff_key id t hb

theorem inv_pop_queue (s s' : LAMState) (n : NewOrRetry) (rest : List NewOrRetry)
    (h : LAMInv s) (hq0 : s.newRetryQueue = n :: rest)
    (h1 : s'.outstanding_activity_tasks = s.outstanding_activity_tasks)
    (h2 : s'.id_to_tt = s.id_to_tt)
    (h3 : s'.backing_off_tasks = s.backing_off_tasks)
    (h4 : s'.newRetryQueue = rest) :
    LAMInv s' := by
  have hq : s.queueIds = n.idOf :: s'.queueIds := by
    simp [LAMState.queueIds, hq0, h4]
  have hsub : ∀ id, id ∈ s'.queueIds → id ∈ s.queueIds := by
    intro id hid; rw [hq]; exact List.mem_cons_of_mem _ hid
  refine ⟨?_, ?_, ?_, ?_, ?_, ?_, ?_, ?_, ?_⟩
  · intro id hid; rw [h2]; exact h.queued_admitted id (hsub id hid)
  · intro tt info ho; rw [h2]
    exact h.outstanding_admitted tt info (h1 ▸ ho)
  · intro id t hb; rw [h2]; exact h.backoff_admitted id t (h3 ▸ hb)
  · intro tt info ho hmem
    exact h.outstanding_not_queued tt info (h1 ▸ ho) (hsub _ hmem)
  · have := h.queue_nodup
    rw [hq] at this
    exact this.of_cons
  · intro id t hb hf hmem
    exact h.backoff_not_queued id t (h3 ▸ hb) hf (hsub _ hmem)
  · intro t1 t2 i1 i2 ho1 ho2 hid
    exact h.outstanding_unique t1 t2 i1 i2 (h1 ▸ ho1) (h1 ▸ ho2) hid
  · intro tt info ho; rw [h3]
    exact h.outstanding_no_backoff tt info (h1 ▸ ho)
  · intro id t hb; exact h.backoff_key id t (h3 ▸ hb)

theorem inv_insert_id (s s' : LAMState) (idk : ExecutingLAId) (tok : Nat)
    (h : LAMInv s)
    (h1 : s'.outstanding_activity_tasks = s.outstanding_activity_tasks)
    (h2 : s'.id_to_tt = upd s.id_to_tt idk (some tok))
    (h3 : s'.backing_off_tasks = s.backing_off_tasks)
    (h4 : s'.newRetryQueue = s.newRetryQueue) :
    LAMInv s' := by
  have hq : s'.queueIds = s.queueIds := by simp [LAMState.queueIds, h4]
  refine ⟨?_, ?_, ?_, ?_, ?_, ?_, ?_, ?_, ?_⟩
  · intro id hid; rw [h2]
    exact upd_isSome (h.queued_admitted id (hq ▸ hid)) rfl
  · intro tt info ho; rw [h2]
    exact upd_isSome (h.outstanding_admitted tt info (h1 ▸ ho)) rfl
  · intro id t hb; rw [h2]
    exact upd_isSome (h.backoff_admitted id t (h3 ▸ hb)) rfl
  · intro tt info ho; rw [hq]
    exact h.outstanding_not_queued tt info (h1 ▸ ho)
  · rw [hq]; exact h.queue_nodup
  · intro id t hb hf; rw [hq]; exact h.backoff_not_queued id t (h3 ▸ hb) hf
  · intro t1 t2 i1 i2 ho1 ho2 hid
    exact h.outstanding_unique t1 t2 i1 i2 (h1 ▸ ho1) (h1 ▸ ho2) hid
  · intro tt info ho; rw [h3]
    exact h.outstanding_no_backoff tt info (h1 ▸ ho)
  · intro id t hb; exact h.backoff_key id t (h3 ▸ hb)

theorem inv_admit (s s' : LAMState) (act : NewLocalAct) (tok : Nat)
    (h : LAMInv s) (hfresh : s.id_to_tt act.laId = none)
    (h1 : s'.outstanding_activity_tasks = s.outstanding_activity_tasks)
    (h2 : s'.id_to_tt = upd s.id_to_tt act.laId (some tok))
    (h3 : s'.backing_off_tasks = s.backing_off_tasks)
    (h4 : s'.newRetryQueue = s.newRetryQueue ++ [NewOrRetry.New act]) :
    LAMInv s' := by
  have hq : s'.queueIds = s.queueIds ++ [act.laId] := by
    simp [LAMState.queueIds, h4, NewOrRetry.idOf]
  have hnqueued : act.laId ∉ s.queueIds := by
    intro hmem
    have := h.queued_admitted _ hmem
    rw [hfresh] at this; simp at this
  refine ⟨?_, ?_, ?_, ?_, ?_, ?_, ?_, ?_, ?_⟩
  · intro id hid
    rw [hq, List.mem_append, List.mem_singleton] at hid
    rw [h2]
    rcases hid with hid | hid
    · exact upd_isSome (h.queued_admitted id hid) rfl
    · subst hid; rw [upd_same]; rfl
  · intro tt info ho; rw [h2]
    exact upd_isSome (h.outstanding_admitted tt info (h1 ▸ ho)) rfl
  · intro id t hb; rw [h2]
    exact upd_isSome (h.backoff_admitted id t (h3 ▸ hb)) rfl
  · intro tt info ho
    rw [hq, List.mem_append, List.mem_singleton]
    rintro (hmem | hmem)
    · exact h.outstanding_not_queued tt info (h1 ▸ ho) hmem
    · have := h.outstanding_admitted tt info (h1 ▸ ho)
      rw [hmem, hfresh] at this; simp at this
  · rw [hq]; exact nodup_append_one h.queue_nodup hnqueued
  · intro id t hb hf
    rw [hq, List.mem_append, List.mem_singleton]
    rintro (hmem | hmem)
    · exact h.backoff_not_queued id t (h3 ▸ hb) hf hmem
    · have := h.backoff_admitted id t (h3 ▸ hb)
      rw [hmem, hfresh] at this; simp at this
  · intro t1 t2 i1 i2 ho1 ho2 hid
    exact h.outstanding_unique t1 t2 i1 i2 (h1 ▸ ho1) (h1 ▸ ho2) hid
  · intro tt info ho; rw [h3]
    exact h.outstanding_no_backoff tt info (h1 ▸ ho)
  · intro id t hb; exact h.backoff_key id t (h3 ▸ hb)

theorem inv_dispatch_core (s s' : LAMState) (tok : Nat)
    (info : LocalInFlightActInfo) (h : LAMInv s)
    (hlook : s.id_to_tt info.laId = some tok)
    (hnq : info.laId ∉ s.queueIds)
    (hnout : ∀ tt2 info2, s.outstanding_activity_tasks tt2 = some info2 →
      info2.laId ≠ info.laId)
    (hnb : s.backing_off_tasks info.laId = none)
    (h1 : s'.outstanding_activity_tasks =
      upd s.outstanding_activity_tasks tok (some info))
    (h2 : s'.id_to_tt = s.id_to_tt)
    (h3 : s'.backing_off_tasks = s.backing_off_tasks)
    (h4 : s'.newRetryQueue = s.newRetryQueue) :
    LAMInv s' := by
  have hq : s'.queueIds = s.queueIds := by simp [LAMState.queueIds, h4]
  refine ⟨?_, ?_, ?_, ?_, ?_, ?_, ?_, ?_, ?_⟩
  · intro idx hid; rw [h2]; exact h.queued_admitted idx (hq ▸ hid)
  · intro tt2 info2 ho2
    rw [h1] at ho2
    rw [h2]
    by_cases htt : tt2 = tok
    · rw [htt, upd_same] at ho2
      cases ho2; rw [hlook]; rfl
    · rw [upd_ne _ _ _ htt] at ho2
      exact h.outstanding_admitted tt2 info2 ho2
  · intro idx t hb; rw [h2]; exact h.backoff_admitted idx t (h3 ▸ hb)
  · intro tt2 info2 ho2
    rw [h1] at ho2
    rw [hq]
    by_cases htt : tt2 = tok
    · rw [htt, upd_same] at ho2; cases ho2; exact hnq
    · rw [upd_ne _ _ _ htt] at ho2
      exact h.outstanding_not_queued tt2 info2 ho2
  · rw [hq]; exact h.queue_nodup
  · intro idx t hb hf; rw [hq]; exact h.backoff_not_queued idx t (h3 ▸ hb) hf
  · intro t1 t2 i1 i2 ho1 ho2 hid
    rw [h1] at ho1 ho2
    by_cases h1t : t1 = tok <;> by_cases h2t : t2 = tok
    · rw [h1t, h2t]
    · rw [h1t, upd_same] at ho1
      rw [upd_ne _ _ _ h2t] at ho2
      cases ho1
      exact absurd hid.symm (hnout t2 i2 ho2)
    · rw [h2t, upd_same] at ho2
      rw [upd_ne _ _ _ h1t] at ho1
      cases ho2
      exact absurd hid (hnout t1 i1 ho1)
    · rw [upd_ne _ _ _ h1t] at ho1
      rw [upd_ne _ _ _ h2t] at ho2
      exact h.outstanding_unique t1 t2 i1 i2 ho1 ho2 hid
  · intro tt2 info2 ho2
    rw [h1] at ho2
    rw [h3]
    by_cases htt : tt2 = tok
    · rw [htt, upd_same] at ho2; cases ho2; exact hnb
    · rw [upd_ne _ _ _ htt] at ho2
      exact h.outstanding_no_backoff tt2 info2 ho2
  · intro idx t hb; exact h.backoff_key idx t (h3 ▸ hb)

theorem inv_fire_backoff_core (s s' : LAMState) (idk : ExecutingLAId)
    (t : BackoffTask) (h : LAMInv s)
    (hb : s.backing_off_tasks idk = some t) (hfired : t.fired = false)
    (h1 : s'.outstanding_activity_tasks = s.outstanding_activity_tasks)
    (h2 : s'.id_to_tt = s.id_to_tt)
    (h3 : s'.backing_off_tasks =
      upd s.backing_off_tasks idk (some { t with fired := true }))
    (h4 : s'.newRetryQueue = s.newRetryQueue ++ [t.fireMessage]) :
    LAMInv s' := by
  have hkey : t.in_flight.laId = idk := h.backoff_key idk t hb
  have hnq : idk ∉ s.queueIds := h.backoff_not_queued idk t hb hfired
  have hq : s'.queueIds = s.queueIds ++ [idk] := by
    simp [LAMState.queueIds, h4, BackoffTask.fireMessage, NewOrRetry.idOf, hkey]
  refine ⟨?_, ?_, ?_, ?_, ?_, ?_, ?_, ?_, ?_⟩
  · intro idx hid
    rw [hq, List.mem_append, List.mem_singleton] at hid
    rw [h2]
    rcases hid with hid | hid
    · exact h.queued_admitted idx hid
    · rw [hid]; exact h.backoff_admitted idk t hb
  · intro tt info ho; rw [h2]
    exact h.outstanding_admitted tt info (h1 ▸ ho)
  · intro idx t2 hb2
    rw [h3] at hb2
    rw [h2]
    by_cases hx : idx = idk
    · rw [hx]; exact h.backoff_admitted idk t hb
    · rw [upd_ne _ _ _ hx] at hb2
      exact h.backoff_admitted idx t2 hb2
  · intro tt info ho
    rw [hq, List.mem_append, List.mem_singleton]
    rintro (hmem | hmem)
    · exact h.outstanding_not_queued tt info (h1 ▸ ho) hmem
    · have := h.outstanding_no_backoff tt info (h1 ▸ ho)
      rw [hmem, hb] at this; simp at this
  · rw [hq]; exact nodup_append_one h.queue_nodup hnq
  · intro idx t2 hb2 hf2
    rw [h3] at hb2
    rw [hq, List.mem_append, List.mem_singleton]
    by_cases hx : idx = idk
    · rw [hx, upd_same] at hb2
      cases hb2; simp at hf2
    · rw [upd_ne _ _ _ hx] at hb2
      rintro (hmem | hmem)
      · exact h.backoff_not_queued idx t2 hb2 hf2 hmem
      · exact hx hmem
  · intro t1 t2' i1 i2 ho1 ho2 hid
    exact h.outstanding_unique t1 t2' i1 i2 (h1 ▸ ho1) (h1 ▸ ho2) hid
  · intro tt info ho
    rw [h3]
    by_cases hx : info.laId = idk
    · have := h.outstanding_no_backoff tt info (h1 ▸ ho)
      rw [hx, hb] at this; simp at this
    · rw [upd_ne _ _ _ hx]
      exact h.outstanding_no_backoff tt info (h1 ▸ ho)
  · intro idx t2 hb2
    rw [h3] at hb2
    by_cases hx : idx = idk
    · rw [hx, upd_same] at hb2
      cases hb2; rw [hkey, hx]
    · rw [upd_ne _ _ _ hx] at hb2
      exact h.backoff_key idx t2 hb2

theorem inv_fire_backoff (s s' : LAMState) (idk : ExecutingLAId)
    (h : LAMInv s) (hf : fireBackoff s idk = some s') : LAMInv s' := by
  cases hb : s.backing_off_tasks idk with
  | none => simp [fireBackoff, hb] at hf
  | some t =>
      by_cases hfired : t.fired
      · simp [fireBackoff, hb, hfired] at hf
      · have hfired' : t.fired = false := by simpa using hfired
        simp only [fireBackoff, hb, hfired', Bool.false_eq_true, if_false,
          Option.some.injEq] at hf
        exact inv_fire_backoff_core s s' idk t h hb hfired'
          (by rw [← hf]) (by rw [← hf]) (by rw [← hf]) (by rw [← hf])

theorem inv_fireS2C (s s' : LAMState) (idk : ExecutingLAId) (now : Nat)
    (h : LAMInv s) (hf : fireScheduleToClose s idk now = some s') : LAMInv s' := by
  cases hbag : s.timeout_tasks idk with
  | none => simp [fireScheduleToClose, hbag] at hf
  | some bag =>
      cases htask : bag.sched_to_close_task with
      | none => simp [fireScheduleToClose, hbag, htask] at hf
      | some dl =>
          by_cases hdl : dl.1 ≤ now
          · simp only [fireScheduleToClose, hbag, htask, hdl, if_true,
              Option.some.injEq] at hf
            exact inv_of_eq s s' h (by rw [← hf]) (by rw [← hf]) (by rw [← hf])
              (by rw [← hf])
          · simp [fireScheduleToClose, hbag, htask, hdl] at hf

theorem inv_fireSTC (s s' : LAMState) (idk : ExecutingLAId) (now : Nat)
    (h : LAMInv s) (hf : fireStartToClose s idk now = some s') : LAMInv s' := by
  cases hbag : s.timeout_tasks idk with
  | none => simp [fireStartToClose, hbag] at hf
  | some bag =>
      cases htask : bag.start_to_close_task with
      | none => simp [fireStartToClose, hbag, htask] at hf
      | some dl =>
          by_cases hdl : dl.1 + dl.2.1 ≤ now
          · simp only [fireStartToClose, hbag, htask, hdl, if_true,
              Option.some.injEq] at hf
            exact inv_of_eq s s' h (by rw [← hf]) (by rw [← hf]) (by rw [← hf])
              (by rw [← hf])
          · simp [fireStartToClose, hbag, htask, hdl] at hf

theorem inv_enqueueOne (now : Nat) (p : LAMState × List LocalActivityResolution)
    (req : LocalActRequest) (h : LAMInv p.1) :
    LAMInv (enqueueOne now p req).1 := by
  obtain ⟨s, acc⟩ := p
  cases req with
  | New act =>
      by_cases hpres : (s.id_to_tt act.laId).isSome
      · simpa [enqueueOne, hpres] using h
      · have hfresh : s.id_to_tt act.laId = none :=
          Option.not_isSome_iff_eq_none.mp hpres
        cases htb : TimeoutBag.new now act with
        | ok tb =>
            exact inv_admit s _ act (genNextToken s.next_tt_num) h hfresh
              (by simp [enqueueOne, hpres, htb])
              (by simp [enqueueOne, hpres, htb])
              (by simp [enqueueOne, hpres, htb])
              (by simp [enqueueOne, hpres, htb])
        | error res =>
            exact inv_insert_id s _ act.laId (genNextToken s.next_tt_num) h
              (by simp [enqueueOne, hpres, htb])
              (by simp [enqueueOne, hpres, htb])
              (by simp [enqueueOne, hpres, htb])
              (by simp [enqueueOne, hpres, htb])
  | Cancel idk =>
      cases hb : s.backing_off_tasks idk with
      | some t =>
          exact inv_remove_backoff s _ idk h
            (by simp [enqueueOne, hb]) (by simp [enqueueOne, hb])
            (by simp [enqueueOne, hb]) (by simp [enqueueOne, hb])
      | none =>
          cases hl : s.id_to_tt idk with
          | some tok =>
              exact inv_of_eq s _ h
                (by simp [enqueueOne, hb, hl]) (by simp [enqueueOne, hb, hl])
                (by simp [enqueueOne, hb, hl]) (by simp [enqueueOne, hb, hl])
          | none =>
              exact inv_of_eq s _ h
                (by simp [enqueueOne, hb, hl]) (by simp [enqueueOne, hb, hl])
                (by simp [enqueueOne, hb, hl]) (by simp [enqueueOne, hb, hl])

theorem inv_enqueue_fold (now : Nat) (reqs : List LocalActRequest) :
    ∀ p : LAMState × List LocalActivityResolution, LAMInv p.1 →
      LAMInv (reqs.foldl (enqueueOne now) p).1 := by
  induction reqs with
  | nil => intro p h; exact h
  | cons r rs ih =>
      intro p h
      exact ih (enqueueOne now p r) (inv_enqueueOne now p r h)

theorem inv_enqueue (s : LAMState) (now : Nat) (reqs : List LocalActRequest)
    (h : LAMInv s) : LAMInv (s.enqueue now reqs).2 :=
  inv_enqueue_fold now reqs (s, []) h

theorem inv_handleCancelItem (s : LAMState) (c : CancelOrTimeout)
    (r : DispatchOrTimeoutLA) (s' : LAMState) (h : LAMInv s)
    (hres : handleCancelItem s c = .result r s') : LAMInv s' := by
  cases c with
  | Cancel t =>
      simp only [handleCancelItem, NextOutcome.result.injEq] at hres
      rw [← hres.2]; exact h
  | Timeout rid res dc =>
      cases dc with
      | false =>
          simp only [handleCancelItem, Bool.false_eq_true, if_false,
            NextOutcome.result.injEq] at hres
          rw [← hres.2]; exact h
      | true =>
          cases hl : s.id_to_tt ⟨rid, res.seq⟩ with
          | some tok =>
              simp only [handleCancelItem, if_true, hl,
                NextOutcome.result.injEq] at hres
              rw [← hres.2]
              exact inv_complete s tok res.result h
          | none =>
              simp only [handleCancelItem, if_true, hl,
                NextOutcome.result.injEq] at hres
              rw [← hres.2]; exact h

theorem inv_dispatchNewItem (s : LAMState) (now : Nat) (orig : NewLocalAct)
    (idk : ExecutingLAId) (sa : ValidScheduleLA) (new_la : NewLocalAct)
    (attempt : Nat) (r : DispatchOrTimeoutLA) (s' : LAMState) (h : LAMInv s)
    (hidk : orig.laId = idk)
    (hnq : idk ∉ s.queueIds)
    (hnout : ∀ tt2 info2, s.outstanding_activity_tasks tt2 = some info2 →
      info2.laId ≠ idk)
    (hnb : s.backing_off_tasks idk = none)
    (hres : handleNewItem.dispatchNewItem s now orig idk sa new_la attempt =
      .result r s') : LAMInv s' := by
  cases hl : s.id_to_tt idk with
  | none => simp [handleNewItem.dispatchNewItem, hl] at hres
  | some tok =>
      simp only [handleNewItem.dispatchNewItem, hl,
        NextOutcome.result.injEq] at hres
      have hlaId : LocalInFlightActInfo.laId
          { la_info := orig, dispatch_time := now, attempt := attempt } = idk := by
        simp [LocalInFlightActInfo.laId, hidk]
      refine inv_dispatch_core s s' tok
        { la_info := orig, dispatch_time := now, attempt := attempt } h
        (by rw [hlaId, hl]) (by rw [hlaId]; exact hnq)
        (by rw [hlaId]; exact hnout) (by rw [hlaId]; exact hnb)
        ?_ ?_ ?_ ?_ <;> rw [← hres.2]

theorem inv_handleNewItem (s : LAMState) (now : Nat) (n : NewOrRetry)
    (r : DispatchOrTimeoutLA) (s' : LAMState) (h : LAMInv s)
    (hnq : n.idOf ∉ s.queueIds)
    (hnout : ∀ tt2 info2, s.outstanding_activity_tasks tt2 = some info2 →
      info2.laId ≠ n.idOf)
    (hres : handleNewItem s now n = .result r s') : LAMInv s' := by
  have hid : n.laAndAttempt.1.laId = n.idOf := laAndAttempt_laId n
  have hB : LAMInv { s with backing_off_tasks := upd s.backing_off_tasks n.laAndAttempt.1.laId none } :=
    inv_remove_backoff s _ n.laAndAttempt.1.laId h rfl rfl rfl rfl
  have hBnq : n.laAndAttempt.1.laId ∉ LAMState.queueIds { s with backing_off_tasks := upd s.backing_off_tasks n.laAndAttempt.1.laId none } := by
    show n.laAndAttempt.1.laId ∉ s.queueIds
    rw [hid]; exact hnq
  have hBnout : ∀ tt2 info2, LAMState.outstanding_activity_tasks { s with backing_off_tasks := upd s.backing_off_tasks n.laAndAttempt.1.laId none } tt2 = some info2 → info2.laId ≠ n.laAndAttempt.1.laId := by
    intro tt2 info2 ho
    rw [hid]; exact hnout tt2 info2 ho
  have hBnb : LAMState.backing_off_tasks { s with backing_off_tasks := upd s.backing_off_tasks n.laAndAttempt.1.laId none } n.laAndAttempt.1.laId = none :=
    upd_same _ _ _
  simp only [handleNewItem] at hres
  cases hs2s : n.laAndAttempt.1.schedule_cmd.schedule_to_start_timeout with
  | some s2s =>
      simp only [hs2s] at hres
      by_cases hlate : now - n.laAndAttempt.1.schedule_time > s2s
      · rw [if_pos hlate] at hres
        simp only [NextOutcome.result.injEq] at hres
        rw [← hres.2]
        exact inv_of_eq _ _ hB rfl rfl rfl rfl
      · rw [if_neg hlate] at hres
        exact inv_dispatchNewItem _ now n.laAndAttempt.1 n.laAndAttempt.1.laId
          n.laAndAttempt.1.schedule_cmd n.laAndAttempt.1 n.laAndAttempt.2 r s'
          hB rfl hBnq hBnout hBnb hres
  | none =>
      simp only [hs2s] at hres
      exact inv_dispatchNewItem _ now n.laAndAttempt.1 n.laAndAttempt.1.laId
        n.laAndAttempt.1.schedule_cmd n.laAndAttempt.1 n.laAndAttempt.2 r s'
        hB rfl hBnq hBnout hBnb hres

theorem inv_next_pending (s : LAMState) (pollOrder : List SelBranch) (now : Nat)
    (r : DispatchOrTimeoutLA) (s' : LAMState) (h : LAMInv s)
    (hres : s.next_pending pollOrder now = .result r s') : LAMInv s' := by
  unfold LAMState.next_pending at hres
  cases hfr : firstReady s pollOrder with
  | none => rw [hfr] at hres; simp at hres
  | some b =>
      rw [hfr] at hres
      cases b with
      | shutdownBranch => simp at hres
      | cancelBranch =>
          cases hcq : s.cancelQueue with
          | nil => simp [hcq] at hres
          | cons c rest =>
              simp only [hcq] at hres
              have hpop : LAMInv { s with cancelQueue := rest } :=
                inv_of_eq s _ h rfl rfl rfl rfl
              exact inv_handleCancelItem _ c r s' hpop hres
      | newBranch =>
          cases hnq : s.newRetryQueue with
          | nil => simp [hnq] at hres
          | cons n rest =>
              simp only [hnq] at hres
              have hpop : LAMInv { s with newRetryQueue := rest, permits := s.permits - 1 } :=
                inv_pop_queue s _ n rest h hnq rfl rfl rfl rfl
              have hqids : s.queueIds = n.idOf :: rest.map NewOrRetry.idOf := by
                simp [LAMState.queueIds, hnq]
              have hnmem : n.idOf ∉ LAMState.queueIds { s with newRetryQueue := rest, permits := s.permits - 1 } := by
                show n.idOf ∉ rest.map NewOrRetry.idOf
                have := h.queue_nodup
                rw [hqids] at this
                exact (List.nodup_cons.mp this).1
              have hnout : ∀ tt2 info2, LAMState.outstanding_activity_tasks { s with newRetryQueue := rest, permits := s.permits - 1 } tt2 = some info2 → info2.laId ≠ n.idOf := by
                intro tt2 info2 ho heq
                have := h.outstanding_not_queued tt2 info2 ho
                rw [hqids] at this
                exact this (heq ▸ List.mem_cons_self _ _)
              exact inv_handleNewItem _ now n r s' hpop hnmem hnout hres

theorem inv_step (s s' : LAMState) (h : LAMInv s) (hs : Step s s') : LAMInv s' := by
  cases hs with
  | enqueue now reqs => exact inv_enqueue s now reqs h
  | nextPending pollOrder now r s2 hres =>
      exact inv_next_pending s pollOrder now r _ h hres
  | complete tt status => exact inv_complete s tt status h
  | fireS2C idk now s2 hf => exact inv_fireS2C s _ idk now h hf
  | fireSTC idk now s2 hf => exact inv_fireSTC s _ idk now h hf
  | fireBackoffTask idk s2 hf => exact inv_fire_backoff s _ idk h hf
  | shutdownFinished hempty => exact inv_of_eq s _ h rfl rfl rfl rfl

theorem inv_init (max_concurrent : Nat) (ns : String) :
    LAMInv (LocalActivityManager.new max_concurrent ns) := by
  refine ⟨?_, ?_, ?_, ?_, ?_, ?_, ?_, ?_, ?_⟩ <;>
    simp [LocalActivityManager.new, LAMState.queueIds]

theorem inv_reachable (s : LAMState) (h : Reachable s) : LAMInv s := by
  induction h with
  | init m ns => exact inv_init m ns
  | step _ hs ih => exact inv_step _ _ ih hs

/-! ## Stuck-id preservation (claim C10) -/

theorem stuck_of_parts (id : ExecutingLAId) (s s' : LAMState) (h : StuckId id s)
    (e1 : s'.id_to_tt id = s.id_to_tt id)
    (e2 : ∀ x, x ∈ s'.queueIds → x ∈ s.queueIds ∨ x ≠ id)
    (e3 : ∀ tt info, s'.outstanding_activity_tasks tt = some info →
      s.outstanding_activity_tasks tt = some info ∨ info.laId ≠ id)
    (e4 : s'.backing_off_tasks id = s.backing_off_tasks id) :
    StuckId id s' := by
  obtain ⟨h1, h2, h3, h4⟩ := h
  refine ⟨by rw [e1]; exact h1, ?_, ?_, by rw [e4]; exact h4⟩
  · intro hmem
    rcases e2 id hmem with hm | hm
    · exact h2 hm
    · exact hm rfl
  · intro tt info ho
    rcases e3 tt info ho with hm | hm
    · exact h3 tt info hm
    · exact hm

theorem stuck_complete (id : ExecutingLAId) (s : LAMState) (tt : Nat)
    (status : LocalActivityExecutionResult) (h : StuckId id s) :
    StuckId id (s.complete tt status).2 := by
  cases hout : s.outstanding_activity_tasks tt with
  | none =>
      have : (s.complete tt status).2 = s := by simp [LAMState.complete, hout]
      rw [this]; exact h
  | some info =>
      have hne : info.laId ≠ id := h.2.2.1 tt info hout
      refine stuck_of_parts id s _ h ?_ ?_ ?_ ?_
      · show (s.complete tt status).2.id_to_tt id = s.id_to_tt id
        cases status with
        | Completed x => simp [LAMState.complete, hout, upd_ne _ _ _ (Ne.symm hne)]
        | TimedOut x => simp [LAMState.complete, hout, upd_ne _ _ _ (Ne.symm hne)]
        | Cancelled x => simp [LAMState.complete, hout, upd_ne _ _ _ (Ne.symm hne)]
        | Failed f =>
            cases hr : info.la_info.schedule_cmd.retry_policy.should_retry
                info.attempt f.app_failure with
            | none => simp [LAMState.complete, hout, hr, upd_ne _ _ _ (Ne.symm hne)]
            | some backoff =>
                by_cases hgt : info.la_info.schedule_cmd.local_retry_threshold < backoff
                · simp [LAMState.complete, hout, hr, hgt,
                    upd_ne _ _ _ (Ne.symm hne)]
                · simp [LAMState.complete, hout, hr, hgt,
                    upd_ne _ _ _ (Ne.symm hne)]
      · intro x hmem
        left
        have : (s.complete tt status).2.newRetryQueue = s.newRetryQueue := by
          cases status with
          | Completed x => simp [LAMState.complete, hout]
          | TimedOut x => simp [LAMState.complete, hout]
          | Cancelled x => simp [LAMState.complete, hout]
          | Failed f =>
              cases hr : info.la_info.schedule_cmd.retry_policy.should_retry
                  info.attempt f.app_failure with
              | none => simp [LAMState.complete, hout, hr]
              | some backoff =>
                  by_cases hgt : info.la_info.schedule_cmd.local_retry_threshold < backoff
                  · simp [LAMState.complete, hout, hr, hgt]
                  · simp [LAMState.complete, hout, hr, hgt]
        simpa [LAMState.queueIds, this] using hmem
      · intro tt2 info2 ho2
        have : (s.complete tt status).2.outstanding_activity_tasks =
            upd s.outstanding_activity_tasks tt none := by
          cases status with
          | Completed x => simp [LAMState.complete, hout]
          | TimedOut x => simp [LAMState.complete, hout]
          | Cancelled x => simp [LAMState.complete, hout]
          | Failed f =>
              cases hr : info.la_info.schedule_cmd.retry_policy.should_retry
                  info.attempt f.app_failure with
              | none => simp [LAMState.complete, hout, hr]
              | some backoff =>
                  by_cases hgt : info.la_info.schedule_cmd.local_retry_threshold < backoff
                  · simp [LAMState.complete, hout, hr, hgt]
                  · simp [LAMState.complete, hout, hr, hgt]
        rw [this] at ho2
        left
        by_cases htt : tt2 = tt
        · rw [htt, upd_same] at ho2; simp at ho2
        · rw [upd_ne _ _ _ htt] at ho2; exact ho2
      · show (s.complete tt status).2.backing_off_tasks id = s.backing_off_tasks id
        cases status with
        | Completed x => simp [LAMState.complete, hout]
        | TimedOut x => simp [LAMState.complete, hout]
        | Cancelled x => simp [LAMState.complete, hout]
        | Failed f =>
            cases hr : info.la_info.schedule_cmd.retry_policy.should_retry
                info.attempt f.app_failure with
            | none => simp [LAMState.complete, hout, hr]
            | some backoff =>
                by_cases hgt : info.la_info.schedule_cmd.local_retry_threshold < backoff
                · simp [LAMState.complete, hout, hr, hgt]
                · simp [LAMState.complete, hout, hr, hgt,
                    upd_ne _ _ _ (Ne.symm hne)]

theorem stuck_enqueueOne (id : ExecutingLAId) (now : Nat)
    (p : LAMState × List LocalActivityResolution) (req : LocalActRequest)
    (h : StuckId id p.1) : StuckId id (enqueueOne now p req).1 := by
  obtain ⟨s, acc⟩ := p
  replace h : StuckId id s := h
  cases req with
  | New act =>
      by_cases hpres : (s.id_to_tt act.laId).isSome
      · have : (enqueueOne now (s, acc) (.New act)).1 = s := by
          simp [enqueueOne, hpres]
        rw [this]; exact h
      · have hfresh : s.id_to_tt act.laId = none :=
          Option.not_isSome_iff_eq_none.mp hpres
        have hne : act.laId ≠ id := by
          intro he
          rw [he] at hfresh
          have h1 := h.1
          rw [hfresh] at h1
          simp at h1
        cases htb : TimeoutBag.new now act with
        | ok tb =>
            refine stuck_of_parts id s _ h ?_ ?_ ?_ ?_
            · show (enqueueOne now (s, acc) (.New act)).1.id_to_tt id = s.id_to_tt id
              simp [enqueueOne, hpres, htb, upd_ne _ _ _ (Ne.symm hne)]
            · intro x hmem
              have : (enqueueOne now (s, acc) (.New act)).1.newRetryQueue =
                  s.newRetryQueue ++ [NewOrRetry.New act] := by
                simp [enqueueOne, hpres, htb]
              rw [LAMState.queueIds, this, List.map_append] at hmem
              rcases List.mem_append.mp hmem with hm | hm
              · exact Or.inl hm
              · right
                simp [NewOrRetry.idOf] at hm
                rw [hm]; exact hne
            · intro tt info ho
              left
              have : (enqueueOne now (s, acc) (.New act)).1.outstanding_activity_tasks =
                  s.outstanding_activity_tasks := by
                simp [enqueueOne, hpres, htb]
              rwa [this] at ho
            · show (enqueueOne now (s, acc) (.New act)).1.backing_off_tasks id =
                s.backing_off_tasks id
              simp [enqueueOne, hpres, htb]
        | error res =>
            refine stuck_of_parts id s _ h ?_ ?_ ?_ ?_
            · show (enqueueOne now (s, acc) (.New act)).1.id_to_tt id = s.id_to_tt id
              simp [enqueueOne, hpres, htb, upd_ne _ _ _ (Ne.symm hne)]
            · intro x hmem
              left
              have : (enqueueOne now (s, acc) (.New act)).1.newRetryQueue =
                  s.newRetryQueue := by simp [enqueueOne, hpres, htb]
              simpa [LAMState.queueIds, this] using hmem
            · intro tt info ho
              left
              have : (enqueueOne now (s, acc) (.New act)).1.outstanding_activity_tasks =
                  s.outstanding_activity_tasks := by simp [enqueueOne, hpres, htb]
              rwa [this] at ho
            · show (enqueueOne now (s, acc) (.New act)).1.backing_off_tasks id =
                s.backing_off_tasks id
              simp [enqueueOne, hpres, htb]
  | Cancel idk =>
      cases hb : s.backing_off_tasks idk with
      | some t =>
          refine stuck_of_parts id s _ h ?_ ?_ ?_ ?_
          · show (enqueueOne now (s, acc) (.Cancel idk)).1.id_to_tt id = s.id_to_tt id
            simp [enqueueOne, hb]
          · intro x hmem
            left
            have : (enqueueOne now (s, acc) (.Cancel idk)).1.newRetryQueue =
                s.newRetryQueue := by simp [enqueueOne, hb]
            simpa [LAMState.queueIds, this] using hmem
          · intro tt info ho
            left
            have : (enqueueOne now (s, acc) (.Cancel idk)).1.outstanding_activity_tasks =
                s.outstanding_activity_tasks := by simp [enqueueOne, hb]
            rwa [this] at ho
          · show (enqueueOne now (s, acc) (.Cancel idk)).1.backing_off_tasks id =
              s.backing_off_tasks id
            have : (enqueueOne now (s, acc) (.Cancel idk)).1.backing_off_tasks =
                upd s.backing_off_tasks idk none := by simp [enqueueOne, hb]
            rw [this]
            by_cases hx : id = idk
            · rw [hx, upd_same]
              rw [hx] at h
              exact h.2.2.2.symm
            · rw [upd_ne _ _ _ hx]
      | none =>
          cases hl : s.id_to_tt idk with
          | some tok =>
              have : (enqueueOne now (s, acc) (.Cancel idk)).1.id_to_tt = s.id_to_tt ∧
                  (enqueueOne now (s, acc) (.Cancel idk)).1.newRetryQueue = s.newRetryQueue ∧
                  (enqueueOne now (s, acc) (.Cancel idk)).1.outstanding_activity_tasks = s.outstanding_activity_tasks ∧
                  (enqueueOne now (s, acc) (.Cancel idk)).1.backing_off_tasks = s.backing_off_tasks := by
                refine ⟨?_, ?_, ?_, ?_⟩ <;> simp [enqueueOne, hb, hl]
              refine stuck_of_parts id s _ h (by rw [this.1]) ?_
                (fun tt info ho => Or.inl (by rwa [this.2.2.1] at ho))
                (by rw [this.2.2.2])
              intro x hmem
              left
              simpa [LAMState.queueIds, this.2.1] using hmem
          | none =>
              have : (enqueueOne now (s, acc) (.Cancel idk)).1 = s := by
                simp [enqueueOne, hb, hl]
              rw [this]; exact h

theorem stuck_enqueue_fold (id : ExecutingLAId) (now : Nat)
    (reqs : List LocalActRequest) :
    ∀ p : LAMState × List LocalActivityResolution, StuckId id p.1 →
      StuckId id (reqs.foldl (enqueueOne now) p).1 := by
  induction reqs with
  | nil => intro p h; exact h
  | cons r rs ih =>
      intro p h
      exact ih (enqueueOne now p r) (stuck_enqueueOne id now p r h)

theorem stuck_enqueue (id : ExecutingLAId) (s : LAMState) (now : Nat)
    (reqs : List LocalActRequest) (h : StuckId id s) :
    StuckId id (s.enqueue now reqs).2 :=
  stuck_enqueue_fold id now reqs (s, []) h

theorem stuck_handleCancelItem (id : ExecutingLAId) (s : LAMState)
    (c : CancelOrTimeout) (r : DispatchOrTimeoutLA) (s' : LAMState)
    (h : StuckId id s) (hres : handleCancelItem s c = .result r s') :
    StuckId id s' := by
  cases c with
  | Cancel t =>
      simp only [handleCancelItem, NextOutcome.result.injEq] at hres
      rw [← hres.2]; exact h
  | Timeout rid res dc =>
      cases dc with
      | false =>
          simp only [handleCancelItem, Bool.false_eq_true, if_false,
            NextOutcome.result.injEq] at hres
          rw [← hres.2]; exact h
      | true =>
          cases hl : s.id_to_tt ⟨rid, res.seq⟩ with
          | some tok =>
              simp only [handleCancelItem, if_true, hl,
                NextOutcome.result.injEq] at hres
              rw [← hres.2]
              exact stuck_complete id s tok res.result h
          | none =>
              simp only [handleCancelItem, if_true, hl,
                NextOutcome.result.injEq] at hres
              rw [← hres.2]; exact h

theorem stuck_dispatchNewItem (id : ExecutingLAId) (s : LAMState) (now : Nat)
    (orig : NewLocalAct) (idk : ExecutingLAId) (sa : ValidScheduleLA)
    (new_la : NewLocalAct) (attempt : Nat) (r : DispatchOrTimeoutLA)
    (s' : LAMState) (h : StuckId id s) (hne : orig.laId ≠ id)
    (hres : handleNewItem.dispatchNewItem s now orig idk sa new_la attempt =
      .result r s') : StuckId id s' := by
  cases hl : s.id_to_tt idk with
  | none => simp [handleNewItem.dispatchNewItem, hl] at hres
  | some tok =>
      simp only [handleNewItem.dispatchNewItem, hl,
        NextOutcome.result.injEq] at hres
      refine stuck_of_parts id s _ h (by rw [← hres.2]) ?_ ?_ (by rw [← hres.2])
      · intro x hmem
        left
        have : s'.newRetryQueue = s.newRetryQueue := by rw [← hres.2]
        simpa [LAMState.queueIds, this] using hmem
      · intro tt2 info2 ho2
        have : s'.outstanding_activity_tasks = upd s.outstanding_activity_tasks
            tok (some { la_info := orig, dispatch_time := now, attempt := attempt }) := by
          rw [← hres.2]
        rw [this] at ho2
        by_cases htt : tt2 = tok
        · rw [htt, upd_same] at ho2
          cases ho2
          right
          simpa [LocalInFlightActInfo.laId] using hne
        · rw [upd_ne _ _ _ htt] at ho2; exact Or.inl ho2

theorem stuck_handleNewItem (id : ExecutingLAId) (s : LAMState) (now : Nat)
    (n : NewOrRetry) (r : DispatchOrTimeoutLA) (s' : LAMState)
    (h : StuckId id s) (hne : n.idOf ≠ id)
    (hres : handleNewItem s now n = .result r s') : StuckId id s' := by
  have hid : n.laAndAttempt.1.laId = n.idOf := laAndAttempt_laId n
  have hB : StuckId id { s with backing_off_tasks := upd s.backing_off_tasks n.laAndAttempt.1.laId none } := by
    refine stuck_of_parts id s _ h rfl (fun x hmem => Or.inl hmem)
      (fun tt info ho => Or.inl ho) ?_
    show upd s.backing_off_tasks n.laAndAttempt.1.laId none id = s.backing_off_tasks id
    by_cases hx : id = n.laAndAttempt.1.laId
    · rw [hx, upd_same]
      rw [← hx]
      exact h.2.2.2.symm
    · rw [upd_ne _ _ _ hx]
  have hBne : n.laAndAttempt.1.laId ≠ id := by rw [hid]; exact hne
  simp only [handleNewItem] at hres
  cases hs2s : n.laAndAttempt.1.schedule_cmd.schedule_to_start_timeout with
  | some s2s =>
      simp only [hs2s] at hres
      by_cases hlate : now - n.laAndAttempt.1.schedule_time > s2s
      · rw [if_pos hlate] at hres
        simp only [NextOutcome.result.injEq] at hres
        rw [← hres.2]
        exact stuck_of_parts id _ _ hB rfl (fun x hmem => Or.inl hmem)
          (fun tt info ho => Or.inl ho) rfl
      · rw [if_neg hlate] at hres
        exact stuck_dispatchNewItem id _ now n.laAndAttempt.1 n.laAndAttempt.1.laId
          n.laAndAttempt.1.schedule_cmd n.laAndAttempt.1 n.laAndAttempt.2 r s'
          hB hBne hres
  | none =>
      simp only [hs2s] at hres
      exact stuck_dispatchNewItem id _ now n.laAndAttempt.1 n.laAndAttempt.1.laId
        n.laAndAttempt.1.schedule_cmd n.laAndAttempt.1 n.laAndAttempt.2 r s'
        hB hBne hres

theorem stuck_next_pending (id : ExecutingLAId) (s : LAMState)
    (pollOrder : List SelBranch) (now : Nat) (r : DispatchOrTimeoutLA)
    (s' : LAMState) (h : StuckId id s)
    (hres : s.next_pending pollOrder now = .result r s') : StuckId id s' := by
  unfold LAMState.next_pending at hres
  cases hfr : firstReady s pollOrder with
  | none => rw [hfr] at hres; simp at hres
  | some b =>
      rw [hfr] at hres
      cases b with
      | shutdownBranch => simp at hres
      | cancelBranch =>
          cases hcq : s.cancelQueue with
          | nil => simp [hcq] at hres
          | cons c rest =>
              simp only [hcq] at hres
              have hpop : StuckId id { s with cancelQueue := rest } :=
                ⟨h.1, h.2.1, h.2.2.1, h.2.2.2⟩
              exact stuck_handleCancelItem id _ c r s' hpop hres
      | newBranch =>
          cases hnq : s.newRetryQueue with
          | nil => simp [hnq] at hres
          | cons n rest =>
              simp only [hnq] at hres
              have hqids : s.queueIds = n.idOf :: rest.map NewOrRetry.idOf := by
                simp [LAMState.queueIds, hnq]
              have hne : n.idOf ≠ id := by
                intro he
                exact h.2.1 (by rw [hqids, he]; exact List.mem_cons_self _ _)
              have hpop : StuckId id { s with newRetryQueue := rest, permits := s.permits - 1 } := by
                refine ⟨h.1, ?_, h.2.2.1, h.2.2.2⟩
                intro hmem
                exact h.2.1 (by rw [hqids]; exact List.mem_cons_of_mem _ hmem)
              exact stuck_handleNewItem id _ now n r s' hpop hne hres

theorem stuck_fireS2C (id : ExecutingLAId) (s s' : LAMState)
    (idk : ExecutingLAId) (now : Nat) (h : StuckId id s)
    (hf : fireScheduleToClose s idk now = some s') : StuckId id s' := by
  cases hbag : s.timeout_tasks idk with
  | none => simp [fireScheduleToClose, hbag] at hf
  | some bag =>
      cases htask : bag.sched_to_close_task with
      | none => simp [fireScheduleToClose, hbag, htask] at hf
      | some dl =>
          by_cases hdl : dl.1 ≤ now
          · simp only [fireScheduleToClose, hbag, htask, hdl, if_true,
              Option.some.injEq] at hf
            refine stuck_of_parts id s _ h (by rw [← hf]) ?_
              (fun tt info ho => Or.inl (by rw [← hf] at ho; exact ho))
              (by rw [← hf])
            intro x hmem
            left
            have : s'.newRetryQueue = s.newRetryQueue := by rw [← hf]
            simpa [LAMState.queueIds, this] using hmem
          · simp [fireScheduleToClose, hbag, htask, hdl] at hf

theorem stuck_fireSTC (id : ExecutingLAId) (s s' : LAMState)
    (idk : ExecutingLAId) (now : Nat) (h : StuckId id s)
    (hf : fireStartToClose s idk now = some s') : StuckId id s' := by
  cases hbag : s.timeout_tasks idk with
  | none => simp [fireStartToClose, hbag] at hf
  | some bag =>
      cases htask : bag.start_to_close_task with
      | none => simp [fireStartToClose, hbag, htask] at hf
      | some dl =>
          by_cases hdl : dl.1 + dl.2.1 ≤ now
          · simp only [fireStartToClose, hbag, htask, hdl, if_true,
              Option.some.injEq] at hf
            refine stuck_of_parts id s _ h (by rw [← hf]) ?_
              (fun tt info ho => Or.inl (by rw [← hf] at ho; exact ho))
              (by rw [← hf])
            intro x hmem
            left
            have : s'.newRetryQueue = s.newRetryQueue := by rw [← hf]
            simpa [LAMState.queueIds, this] using hmem
          · simp [fireStartToClose, hbag, htask, hdl] at hf

theorem stuck_fireBackoff (id : ExecutingLAId) (s s' : LAMState)
    (idk : ExecutingLAId) (hinv : LAMInv s) (h : StuckId id s)
    (hf : fireBackoff s idk = some s') : StuckId id s' := by
  cases hb : s.backing_off_tasks idk with
  | none => simp [fireBackoff, hb] at hf
  | some t =>
      by_cases hfired : t.fired
      · simp [fireBackoff, hb, hfired] at hf
      · have hfired' : t.fired = false := by simpa using hfired
        simp only [fireBackoff, hb, hfired', Bool.false_eq_true, if_false,
          Option.some.injEq] at hf
        have hkey : t.in_flight.laId = idk := hinv.backoff_key idk t hb
        have hne : idk ≠ id := by
          intro he
          rw [he, h.2.2.2] at hb
          simp at hb
        refine stuck_of_parts id s _ h (by rw [← hf]) ?_
          (fun tt info ho => Or.inl (by rw [← hf] at ho; exact ho)) ?_
        · intro x hmem
          have : s'.newRetryQueue = s.newRetryQueue ++ [t.fireMessage] := by
            rw [← hf]
          rw [LAMState.queueIds, this, List.map_append] at hmem
          rcases List.mem_append.mp hmem with hm | hm
          · exact Or.inl hm
          · right
            simp [BackoffTask.fireMessage, NewOrRetry.idOf, hkey] at hm
            rw [hm]; exact hne
        · have : s'.backing_off_tasks = upd s.backing_off_tasks idk
              (some { t with fired := true }) := by rw [← hf]
          rw [this, upd_ne _ _ _ (Ne.symm hne)]

theorem stuck_step (id : ExecutingLAId) (s s' : LAMState) (hinv : LAMInv s)
    (h : StuckId id s) (hs : Step s s') : StuckId id s' := by
  cases hs with
  | enqueue now reqs => exact stuck_enqueue id s now reqs h
  | nextPending pollOrder now r s2 hres =>
      exact stuck_next_pending id s pollOrder now r _ h hres
  | complete tt status => exact stuck_complete id s tt status h
  | fireS2C idk now s2 hf => exact stuck_fireS2C id s _ idk now h hf
  | fireSTC idk now s2 hf => exact stuck_fireSTC id s _ idk now h hf
  | fireBackoffTask idk s2 hf => exact stuck_fireBackoff id s _ idk hinv h hf
  | shutdownFinished hempty => exact ⟨h.1, h.2.1, h.2.2.1, h.2.2.2⟩

/-! ## Claim C1 -/

/-- C1 (counterexample): the claimed "member of `id_to_tt` iff queued,
dispatched, or backing off" fails in all three of the claim's own cases: after
an immediate pre-queue `ScheduleToClose` resolution (`c1StateA`), after
`enqueue(Cancel)` resolved a backing-off activity (`c1StateB`), and after
`next_pending` emitted a `ScheduleToStart` timeout (`c1StateC`), the id is
still a member of `id_to_tt` although it is neither queued, nor outstanding,
nor backing off. -/
theorem C1_counterexample_id_to_tt_leaks :
    ((demoManager.enqueue 10 [.New demoActS2C]).1.map (fun x => x.result) =
        [LocalActivityExecutionResult.timeout .ScheduleToClose]
      ∧ (c1StateA.id_to_tt demoIdS2C).isSome = true
      ∧ demoIdS2C ∉ c1StateA.queueIds
      ∧ (∀ tt, c1StateA.outstanding_activity_tasks tt = none)
      ∧ c1StateA.backing_off_tasks demoIdS2C = none)
    ∧ ((demoBackingOff.enqueue 0 [.Cancel demoIdRetry]).1.map (fun x => x.result) =
        [LocalActivityExecutionResult.Cancelled (Cancellation.from_details none)]
      ∧ (c1StateB.id_to_tt demoIdRetry).isSome = true
      ∧ demoIdRetry ∉ c1StateB.queueIds
      ∧ (∀ tt, c1StateB.outstanding_activity_tasks tt = none)
      ∧ c1StateB.backing_off_tasks demoIdRetry = none)
    ∧ (((demoManager.enqueue 0 [.New demoActS2S]).2.next_pending cancelFirst 10).value.map
          (fun x => match x with
            | .Timeout _ res task => (res.result, task.isNone)
            | _ => (LocalActivityExecutionResult.Completed {}, false)) =
        some (LocalActivityExecutionResult.timeout .ScheduleToStart, true)
      ∧ (c1StateC.id_to_tt demoIdS2S).isSome = true
      ∧ demoIdS2S ∉ c1StateC.queueIds
      ∧ (∀ tt, c1StateC.outstanding_activity_tasks tt = none)
      ∧ c1StateC.backing_off_tasks demoIdS2S = none) := by
  refine ⟨⟨by decide, by decide, by decide, fun tt => rfl, rfl⟩,
    ⟨by decide, by decide, by decide, ?_, rfl⟩,
    ⟨by decide, by decide, by decide, fun tt => rfl, ?_⟩⟩
  · have hB : c1StateB.outstanding_activity_tasks =
        upd (upd (fun _ => none) 1
          (some { la_info := demoActRetry, dispatch_time := 0, attempt := 1 })) 1 none :=
      rfl
    intro tt
    by_cases h1 : tt = 1
    · rw [hB, h1, upd_same]
    · rw [hB, upd_ne _ _ _ h1, upd_ne _ _ _ h1]
  · have hC : c1StateC.backing_off_tasks = upd (fun _ => none) demoIdS2S none := rfl
    rw [hC]
    by_cases h1 : demoIdS2S = demoIdS2S
    · rw [h1, upd_same]
    · exact absurd rfl h1

/-- C1 (amended): in every reachable state, a queued, dispatched
(outstanding), or backing-off activity's id is a member of `id_to_tt`.  The
converse of the original claim does not hold: after a pre-queue
`ScheduleToClose` resolution, after `enqueue(Cancel)` resolves a backing-off
activity, and after a `ScheduleToStart` timeout at dequeue, the id remains in
`id_to_tt` although it is neither queued, dispatched, nor backing off (see
the counterexample). -/
theorem C1_amended_admitted_ids (s : LAMState) (h : Reachable s) :
    (∀ id, id ∈ s.queueIds → (s.id_to_tt id).isSome)
    ∧ (∀ tt info, s.outstanding_activity_tasks tt = some info →
        (s.id_to_tt info.laId).isSome)
    ∧ (∀ id t, s.backing_off_tasks id = some t → (s.id_to_tt id).isSome) := by
  have hi := inv_reachable s h
  exact ⟨hi.queued_admitted, hi.outstanding_admitted, hi.backoff_admitted⟩

/-- Witness for the amended C1 at a concrete input: after admitting `demoAct`
on a fresh manager it is queued, and its id is in `id_to_tt`. -/
theorem C1_amended_admitted_ids_witness :
    demoId ∈ demoQueued.queueIds ∧ (demoQueued.id_to_tt demoId).isSome :=
  ⟨by decide,
   (C1_amended_admitted_ids demoQueued
      (Reachable.step (Reachable.init 1 "ns")
        (Step.enqueue demoManager 0 [.New demoAct]))).1 demoId (by decide)⟩

/-! ## Claim C10 -/

/-- C10: when `enqueue(New(act))` returns an immediate pre-queue
`ScheduleToClose` resolution for a fresh id, the token entry minted for the
id before the timeout check is never removed: in every state reachable from
then on by any further operations, another `enqueue` of a `New` request with
the same `(run_id, seq_num)` is silently dropped by the idempotency check —
the loop iteration leaves the state and the resolution vector unchanged. -/
theorem C10_prequeue_timeout_blocks_id_forever (s : LAMState) (now : Nat)
    (act : NewLocalAct) (s2c : Nat) (hreach : Reachable s)
    (hfresh : s.id_to_tt act.laId = none)
    (hs2c : act.schedule_cmd.close_timeouts.into_sched_and_start.1 = some s2c)
    (helapsed : s2c ≤ now - act.schedule_time) :
    (s.enqueue now [.New act]).1 =
      [{ seq := act.schedule_cmd.seq
         result := LocalActivityExecutionResult.timeout .ScheduleToClose
         runtime := 0
         attempt := act.schedule_cmd.attempt
         backoff := none
         original_schedule_time := some act.schedule_time }]
    ∧ ∀ s2, Steps (s.enqueue now [.New act]).2 s2 →
        ∀ now2 acc act2, act2.laId = act.laId →
          enqueueOne now2 (s2, acc) (.New act2) = (s2, acc) := by
  have hz : s2c - (now - act.schedule_time) = 0 := Nat.sub_eq_zero_of_le helapsed
  have hinv : LAMInv s := inv_reachable s hreach
  constructor
  · simp [LAMState.enqueue, enqueueOne, TimeoutBag.new, hfresh, hs2c, hz,
      LocalActivityExecutionResult.timeout]
  · have e_id : (s.enqueue now [.New act]).2.id_to_tt =
        upd s.id_to_tt act.laId (some (genNextToken s.next_tt_num)) := by
      simp [LAMState.enqueue, enqueueOne, TimeoutBag.new, hfresh, hs2c, hz]
    have e_q : (s.enqueue now [.New act]).2.newRetryQueue = s.newRetryQueue := by
      simp [LAMState.enqueue, enqueueOne, TimeoutBag.new, hfresh, hs2c, hz]
    have e_out : (s.enqueue now [.New act]).2.outstanding_activity_tasks =
        s.outstanding_activity_tasks := by
      simp [LAMState.enqueue, enqueueOne, TimeoutBag.new, hfresh, hs2c, hz]
    have e_b : (s.enqueue now [.New act]).2.backing_off_tasks =
        s.backing_off_tasks := by
      simp [LAMState.enqueue, enqueueOne, TimeoutBag.new, hfresh, hs2c, hz]
    have hstuck : StuckId act.laId (s.enqueue now [.New act]).2 := by
      refine ⟨?_, ?_, ?_, ?_⟩
      · rw [e_id, upd_same]; rfl
      · intro hmem
        rw [LAMState.queueIds, e_q] at hmem
        have := hinv.queued_admitted _ hmem
        rw [hfresh] at this; simp at this
      · intro tt info ho
        rw [e_out] at ho
        intro he
        have := hinv.outstanding_admitted tt info ho
        rw [he, hfresh] at this; simp at this
      · rw [e_b]
        cases hb : s.backing_off_tasks act.laId with
        | none => rfl
        | some t =>
            have := hinv.backoff_admitted _ t hb
            rw [hfresh] at this; simp at this
    have hinv1 : LAMInv (s.enqueue now [.New act]).2 :=
      inv_enqueue s now [.New act] hinv
    intro s2 hsteps
    have hpair : LAMInv s2 ∧ StuckId act.laId s2 := by
      induction hsteps with
      | refl => exact ⟨hinv1, hstuck⟩
      | tail _ hstep ih =>
          exact ⟨inv_step _ _ ih.1 hstep, stuck_step _ _ _ ih.1 ih.2 hstep⟩
    intro now2 acc act2 hid2
    have hsome : (s2.id_to_tt act2.laId).isSome := by
      rw [hid2]; exact hpair.2.1
    simp [enqueueOne, hsome]

/-- Witness for C10 at a concrete input: `demoActS2C` admitted 10 units late
on a fresh manager, and re-enqueued (zero further steps later). -/
theorem C10_prequeue_timeout_blocks_id_forever_witness :
    (demoManager.enqueue 10 [.New demoActS2C]).1 =
      [{ seq := 2
         result := LocalActivityExecutionResult.timeout .ScheduleToClose
         runtime := 0
         attempt := 0
         backoff := none
         original_schedule_time := some 0 }]
    ∧ enqueueOne 0 ((demoManager.enqueue 10 [.New demoActS2C]).2, [])
        (.New demoActS2C) = ((demoManager.enqueue 10 [.New demoActS2C]).2, []) := by
  have h := C10_prequeue_timeout_blocks_id_forever demoManager 10 demoActS2C 5
    (Reachable.init 1 "ns") rfl rfl (by decide)
  exact ⟨h.1, h.2 _ Relation.ReflTransGen.refl 0 [] demoActS2C rfl⟩
